import Mathlib

/-!
Components of the agent: a verification development.

Shallow embedding of the Go sources

* `component/discovery/process/process.go` (namespace `Process`),
* `component/prometheus/test/metrics/component.go` (namespace `Metrics`),
* `component/pyroscope/java/java.go` (namespace `Java`),
* the scenario of `pkg/flow/module_import_test.go` (namespace `Flow`),

followed by the theorems about them. Go integers are unbounded integers wrapped to 64
bits where the source can overflow, float32 values are exact rationals rounded to
binary32 precision, slices are lists, maps are association lists, and goroutines are an
explicit interleaving of steps.
-/

set_option autoImplicit false

/-! ## Definitions -/

namespace Go

/-- Go int on a 64-bit platform: integer arithmetic wraps to the signed 64-bit range. -/
def wrapInt (x : Int) : Int := (x + 2 ^ 63) % 2 ^ 64 - 2 ^ 63

/-- Value of a decimal digit. -/
def digitVal (ch : Char) : Option Nat :=
  if 48 ≤ ch.toNat ∧ ch.toNat ≤ 57 then some (ch.toNat - 48) else none

/-- Value of a non-empty run of decimal digits. -/
def parseDigits : List Char → Nat → Option Nat
  | [], acc => some acc
  | ch :: rest, acc =>
    match digitVal ch with
    | none => none
    | some d => parseDigits rest (acc * 10 + d)

/-- Function strconv.Atoi: an optional sign, then one or more decimal digits, the value
within the int range; none stands for a non-nil error. -/
def Atoi (s : String) : Option Int :=
  match s.data with
  | [] => none
  | ch :: rest =>
    if ch = '-' then
      if rest = [] then none
      else match parseDigits rest 0 with
        | none => none
        | some n => if n ≤ 2 ^ 63 then some (-(n : Int)) else none
    else if ch = '+' then
      if rest = [] then none
      else match parseDigits rest 0 with
        | none => none
        | some n => if n < 2 ^ 63 then some (n : Int) else none
    else match parseDigits (ch :: rest) 0 with
      | none => none
      | some n => if n < 2 ^ 63 then some (n : Int) else none

/-- Verb %d of fmt.Sprintf on an int. -/
def fmtInt (n : Int) : String := toString n

end Go

namespace Process

/-- A discovery target, Go type map[string]string. -/
abbrev Target := List (String × String)

/-- Arguments of discovery.process. -/
structure Arguments where
  Join : List Target
  RefreshInterval : Int
  ProcFS : String

/-- The fields of Component that Run, Update and changed read or write. -/
structure Component where
  procFS : String
  refreshInterval : Int
  processes : List Target
  join : List Target

/-- New: copies ProcFS and RefreshInterval; processes and join start nil. -/
def New (args : Arguments) : Component :=
  { procFS := args.ProcFS, refreshInterval := args.RefreshInterval, processes := [], join := [] }

/-- What the select statement of Run can observe. A tick carries the behaviour of
discover at that moment, as a function of the procFS path it is called with. -/
inductive Event (E P : Type) where
  | cancelled : Event E P
  | tick (discover : String → Except E (List P)) : Event E P
  | joinUpdate (jt : List Target) : Event E P

/-- Update: sends args.Join on joinUpdates; Run receives it as a joinUpdate event. -/
def Update {E P : Type} (args : Arguments) : Event E P := .joinUpdate args.Join

/-- How Run has stopped: by a return statement (err is nil or an error), or by a panic. -/
inductive Exit (E : Type) where
  | returned (err : Option E) : Exit E
  | panicked : Exit E

/-- The observable result of Run over a finite run of events: the component, the exports
passed to onStateChange in order, and how Run has stopped (none: still in the loop). -/
structure Result (E : Type) where
  c : Component
  out : List (List Target)
  ret : Option (Exit E)

/-- The argument changed passes to onStateChange. -/
def changed (join : List Target → List Target → List Target) (c : Component) : List Target :=
  join c.processes c.join

/-- The for/select loop of Run. -/
def loop {E P : Type} (convertProcesses : List P → List Target)
    (join : List Target → List Target → List Target)
    (c : Component) (out : List (List Target)) : List (Event E P) → Result E
  | [] => { c := c, out := out, ret := none }
  | .cancelled :: _ => { c := c, out := out, ret := some (.returned none) }
  | .tick discover :: rest =>
    match discover c.procFS with
    | .error err => { c := c, out := out, ret := some (.returned (some err)) }
    | .ok processes =>
      let c1 := { c with processes := convertProcesses processes }
      loop convertProcesses join c1 (out ++ [changed join c1]) rest
  | .joinUpdate jt :: rest =>
    let c1 := { c with join := jt }
    loop convertProcesses join c1 (out ++ [changed join c1]) rest

/-- Run: the initial discover call and export, then time.NewTicker(c.refreshInterval),
which panics for a non-positive duration, then the loop. -/
def Run {E P : Type} (convertProcesses : List P → List Target)
    (join : List Target → List Target → List Target)
    (c : Component) (discover0 : String → Except E (List P)) (events : List (Event E P)) :
    Result E :=
  match discover0 c.procFS with
  | .error err => { c := c, out := [], ret := some (.returned (some err)) }
  | .ok processes =>
    let c1 := { c with processes := convertProcesses processes }
    if c1.refreshInterval ≤ 0 then { c := c1, out := [changed join c1], ret := some .panicked }
    else loop convertProcesses join c1 [changed join c1] events

/-- A stand-in for convertProcesses, for concrete instances: a process is its pid. -/
def sampleConvert (ps : List String) : List Target :=
  ps.map (fun p => [("__process_pid__", p)])

/-- A stand-in for join, for concrete instances: the processes, then the join set. -/
def sampleJoin (processes join : List Target) : List Target := processes ++ join

/-- Concrete arguments given to New. -/
def sampleArgs0 : Arguments := { Join := [], RefreshInterval := 14, ProcFS := "/proc" }

/-- Concrete arguments given to a later Update. -/
def sampleArgs1 : Arguments :=
  { Join := [[("a", "b")]], RefreshInterval := 99, ProcFS := "/other" }

/-- A discover call that finds process 7. -/
def sampleDiscover (_ : String) : Except String (List String) := .ok ["7"]

/-- One tick on which discover finds processes 7 and 8. -/
def sampleEvents : List (Event String String) := [.tick (fun _ => .ok ["7", "8"])]

/-- Concrete arguments with a zero refresh interval. -/
def sampleArgsZero : Arguments := { Join := [], RefreshInterval := 0, ProcFS := "/proc" }

/-- An event after which the loop keeps going when discover is called with path pf. -/
def quiet {E P : Type} (pf : String) : Event E P → Bool
  | .cancelled => false
  | .tick discover => (discover pf).isOk
  | .joinUpdate _ => true

end Process

namespace Metrics

/-- Round to the nearest integer, ties to the even one. -/
def roundHalfEven (x : ℚ) : Int :=
  if x - ⌊x⌋ < 1 / 2 then ⌊x⌋
  else if 1 / 2 < x - ⌊x⌋ then ⌊x⌋ + 1
  else if ⌊x⌋ % 2 = 0 then ⌊x⌋ else ⌊x⌋ + 1

/-- Exponent of the unit in the last place of binary32 at magnitude q: 24 significant
bits for normal numbers, 2^(-149) throughout the subnormal range. -/
def ulpExp (q : ℚ) : Int := max (Int.log 2 |q|) (-126) - 23

/-- Round a rational to binary32 precision (round to nearest, ties to even), before the
overflow check. -/
def roundF32 (q : ℚ) : ℚ := roundHalfEven (q / 2 ^ ulpExp q) * 2 ^ ulpExp q

/-- A float32 value; signed zeros are identified. -/
inductive F32 where
  | finite (q : ℚ) : F32
  | posInf : F32
  | negInf : F32
  | nan : F32

/-- Overflow check after rounding: magnitudes from 2^128 on become infinities. -/
def F32.ofRat (q : ℚ) : F32 :=
  if 2 ^ 128 ≤ roundF32 q then .posInf
  else if roundF32 q ≤ -(2 ^ 128) then .negInf
  else .finite (roundF32 q)

/-- Conversion float32(n) of an int. -/
def F32.ofInt (n : Int) : F32 := F32.ofRat n

/-- Comparison x == 0. -/
def F32.isZero : F32 → Bool
  | .finite q => decide (q = 0)
  | _ => false

/-- Comparison x > 1. -/
def F32.gtOne : F32 → Bool
  | .finite q => decide (1 < q)
  | .posInf => true
  | _ => false

/-- The float32 product. -/
def F32.mul : F32 → F32 → F32
  | .nan, _ => .nan
  | _, .nan => .nan
  | .finite a, .finite b => F32.ofRat (a * b)
  | .finite a, .posInf => if a = 0 then .nan else if 0 < a then .posInf else .negInf
  | .finite a, .negInf => if a = 0 then .nan else if 0 < a then .negInf else .posInf
  | .posInf, .finite b => if b = 0 then .nan else if 0 < b then .posInf else .negInf
  | .negInf, .finite b => if b = 0 then .nan else if 0 < b then .negInf else .posInf
  | .posInf, .posInf => .posInf
  | .posInf, .negInf => .negInf
  | .negInf, .posInf => .negInf
  | .negInf, .negInf => .posInf

/-- Conversion int(x): truncation toward zero; none where the value does not fit an int
(the result is then implementation-dependent). -/
def F32.toInt : F32 → Option Int
  | .finite q =>
    let t : Int := if 0 ≤ q then ⌊q⌋ else ⌈q⌉
    if -(2 ^ 63) ≤ t ∧ t < 2 ^ 63 then some t else none
  | _ => none

/-- Arguments of prometheus.test.metrics. -/
structure Arguments where
  NumberOfInstances : Int
  NumberOfMetrics : Int
  NumberOfSeries : Int
  MetricsRefresh : Int
  ChurnPercent : F32

/-- The type instance of the source: id window, id and the slice buf (its bytes). -/
structure Instance where
  start : Int
  end_ : Int
  id : Int
  buf : List Nat

/-- Method buffer: a copy of buf. -/
def Instance.buffer (i : Instance) : List Nat := i.buf

/-- The value adjust of churn: int(float32(i.end-i.start) * churn); none where the
conversion to int is implementation-dependent. -/
def Instance.churnAdjust (i : Instance) (churn : F32) : Option Int :=
  ((F32.ofInt (Go.wrapInt (i.end_ - i.start))).mul churn).toInt

/-- Method churn. -/
def Instance.churn (i : Instance) (churn : F32) : Option Instance :=
  if churn.isZero || churn.gtOne then some i
  else
    match i.churnAdjust churn with
    | none => none
    | some adjust =>
      some { i with start := Go.wrapInt (i.start + adjust), end_ := Go.wrapInt (i.end_ + adjust) }

/-- The label list of one metric line. -/
def seriesLabels (seriesCount : Int) (id : Int) : List String :=
  (List.range seriesCount.toNat).map
      (fun (s : Nat) => "series_" ++ Go.fmtInt (s : Int) ++ "=\"value_" ++ Go.fmtInt (s : Int)
        ++ "\"")
    ++ ["instance_id=\"" ++ Go.fmtInt id ++ "\""]

/-- What one iteration of the loop of generateData writes for metric j. -/
def metricText (seriesCount : Int) (id : Int) (j : Int) : String :=
  "# TYPE agent_metric_test_" ++ Go.fmtInt j ++ " counter\n"
    ++ "agent_metric_test_" ++ Go.fmtInt j ++ "\x7b"
    ++ String.intercalate "," (seriesLabels seriesCount id)
    ++ "\x7d 1\n"

/-- The text generateData builds: one block per j with start <= j < end. -/
def Instance.text (i : Instance) (seriesCount : Int) : String :=
  String.join ((List.range (i.end_ - i.start).toNat).map
    (fun (t : Nat) => metricText seriesCount i.id (i.start + (t : Int))))

/-- Bytes of a text (Buffer.Bytes). -/
def textBytes (s : String) : List Nat := s.data.map Char.toNat

/-- Function snappy.MaxEncodedLen. -/
def maxEncodedLen (n : Nat) : Nat := 32 + n + n / 6

/-- Function snappy.Encode(dst, src) for a block encoder enc: the bytes of dst after the
call, and the returned slice. A dst shorter than MaxEncodedLen(len(src)) is left alone and
a new slice is allocated. -/
def snappyEncode (enc : List Nat → List Nat) (dst src : List Nat) : List Nat × List Nat :=
  if dst.length < maxEncodedLen src.length then (dst, enc src)
  else (enc src ++ dst.drop (enc src).length, enc src)

/-- Method generateData: the slice returned by snappy.Encode is discarded; i.buf is
passed as dst only. -/
def Instance.generateData (enc : List Nat → List Nat) (i : Instance) (seriesCount : Int) :
    Instance :=
  { i with buf := (snappyEncode enc i.buf (textBytes (i.text seriesCount))).1 }

/-- The fields of Component that generateNewSet and serveMetrics use. -/
structure Component where
  args : Arguments
  instances : List Instance

/-- Function NewComponent. -/
def NewComponent (c : Arguments) : Component := { args := c, instances := [] }

/-- All results of a list, if none failed. -/
def allSome {α : Type} : List (Option α) → Option (List α)
  | [] => some []
  | none :: _ => none
  | some a :: rest =>
    match allSome rest with
    | none => none
    | some as => some (a :: as)

/-- Method generateNewSet; none where make panics on a negative length or churn is
implementation-dependent. -/
def Component.generateNewSet (enc : List Nat → List Nat) (c : Component)
    (forceNewInstances : Bool) : Option Component :=
  let fresh : Option (List Instance) :=
    if c.instances.length = 0 ∨ forceNewInstances = true then
      if c.args.NumberOfInstances < 0 then none
      else some ((List.range c.args.NumberOfInstances.toNat).map
        (fun (i : Nat) =>
          { start := 1, end_ := c.args.NumberOfMetrics, id := (i : Int), buf := [] }))
    else allSome (c.instances.map (fun i => i.churn c.args.ChurnPercent))
  match fresh with
  | none => none
  | some insts =>
    some { c with instances := insts.map (fun i => i.generateData enc c.args.NumberOfSeries) }

/-- What serveMetrics does with a request. -/
inductive Response where
  | notFound : Response
  | body (contentEncoding : String) (bytes : List Nat) : Response
  | indexOutOfRange : Response
  deriving DecidableEq

/-- Method serveMetrics for the path variable id. -/
def Component.serveMetrics (c : Component) (idVar : String) : Response :=
  match Go.Atoi idVar with
  | none => .notFound
  | some id =>
    match (if 0 ≤ id then c.instances.get? id.toNat else none) with
    | none => .indexOutOfRange
    | some i => .body "snappy" i.buffer

/-- Split a text at newlines. -/
def splitLines : List Char → List (List Char)
  | [] => [[]]
  | ch :: rest =>
    match splitLines rest with
    | [] => [[]]
    | l :: ls => if ch = '\n' then [] :: l :: ls else (ch :: l) :: ls

/-- A line of the form # TYPE agent_metric_test_... counter. -/
def isTypeLine (l : List Char) : Bool :=
  "# TYPE agent_metric_test_".data.isPrefixOf l && " counter".data.isSuffixOf l

/-- Number of TYPE lines of a text. -/
def typeLineCount (s : String) : Nat := ((splitLines s.data).filter isTypeLine).length


/-- Where the goroutine executing Run stands. -/
inductive RunAt where
  /-- In generateNewSet, at c.mut.Lock(). -/
  | genLock (forceNewInstances : Bool) : RunAt
  /-- In generateNewSet, holding c.mut until the deferred Unlock. -/
  | genHeld (forceNewInstances : Bool) : RunAt
  /-- At the top of the loop, at c.mut.Lock(). -/
  | loopLock : RunAt
  /-- Holding c.mut, ticker created, at c.mut.Unlock(). -/
  | loopHeld : RunAt
  /-- Blocked in the select statement. -/
  | inSelect : RunAt
  /-- Returned nil. -/
  | returned : RunAt
  deriving DecidableEq

/-- Where the goroutine executing Update stands. -/
inductive UpdateAt where
  /-- No call of Update is in progress. -/
  | idle : UpdateAt
  /-- At c.mut.Lock(). -/
  | atLock : UpdateAt
  /-- Holding c.mut, c.args assigned, blocked sending on the unbuffered c.argsUpdate. -/
  | atSend : UpdateAt
  /-- The send is done; return nil with the deferred Unlock is next. -/
  | atReturn : UpdateAt
  deriving DecidableEq

/-- Who holds c.mut. -/
inductive Holder where
  | run : Holder
  | update : Holder
  deriving DecidableEq

/-- A state of Run interleaved with a caller of Update; returns counts the Update calls
that have returned. -/
structure Sched where
  run : RunAt
  upd : UpdateAt
  mutHolder : Option Holder
  returns : Nat
  deriving DecidableEq

/-- The scheduling choices. -/
inductive Action where
  /-- The Run goroutine executes its next statement. -/
  | runStep : Action
  /-- The select of Run takes the ticker case. -/
  | tick : Action
  /-- The select of Run takes the context case (cancellation). -/
  | cancel : Action
  /-- The select of Run receives from c.argsUpdate what Update is sending. -/
  | recv : Action
  /-- Update is called. -/
  | call : Action
  /-- The Update goroutine executes its next statement. -/
  | updStep : Action
  deriving DecidableEq

/-- One step of the interleaving; none when the action is not enabled (the goroutine is
blocked, or the select case is not ready). -/
def step (a : Action) (s : Sched) : Option Sched :=
  match a, s.run, s.upd, s.mutHolder with
  | .runStep, .genLock f, _, none => some { s with run := .genHeld f, mutHolder := some .run }
  | .runStep, .genHeld _, _, some .run => some { s with run := .loopLock, mutHolder := none }
  | .runStep, .loopLock, _, none => some { s with run := .loopHeld, mutHolder := some .run }
  | .runStep, .loopHeld, _, some .run => some { s with run := .inSelect, mutHolder := none }
  | .tick, .inSelect, _, _ => some { s with run := .genLock false }
  | .cancel, .inSelect, _, _ => some { s with run := .returned }
  | .recv, .inSelect, .atSend, _ => some { s with run := .loopLock, upd := .atReturn }
  | .call, _, .idle, _ => some { s with upd := .atLock }
  | .updStep, _, .atLock, none => some { s with upd := .atSend, mutHolder := some .update }
  | .updStep, _, .atReturn, some .update =>
    some { s with upd := .idle, mutHolder := none, returns := s.returns + 1 }
  | _, _, _, _ => none

/-- Run a schedule from a state. -/
def exec : List Action → Sched → Option Sched
  | [], s => some s
  | a :: rest, s =>
    match step a s with
    | none => none
    | some s2 => exec rest s2

/-- Run has just been started (at generateNewSet(true)), and no Update is in progress. -/
def initSched : Sched := { run := .genLock true, upd := .idle, mutHolder := none, returns := 0 }

/-- Every scheduling choice. -/
def allActions : List Action := [.runStep, .tick, .cancel, .recv, .call, .updStep]

end Metrics

namespace Java

/-- A discovery target, Go type map[string]string. -/
abbrev Target := List (String × String)

/-- Constant labelProcessID. -/
def labelProcessID : String := "__process_pid__"

/-- Indexing a Go map of strings: the empty string for a missing key. -/
def Target.get (t : Target) (k : String) : String := (t.lookup k).getD ""

/-- The type profilingLoop and its functions newProcess, update and Close are declared
outside these sources; a loop is the record of the calls made on it: the pid and target
passed to newProcess, the target replaced by update, closed set by Close. -/
structure profilingLoop where
  pid : Int
  target : Target
  closed : Bool
  deriving DecidableEq

/-- The fields of javaComponent that updateTargets and stop use. Field loops lists every
profilingLoop returned by newProcess, in creation order; a pointer to a loop is its
index. Field pid2process is the Go map from pid to loop pointer, none being the nil map. -/
structure javaComponent where
  loops : List profilingLoop
  pid2process : Option (List (Int × Nat))
  deriving DecidableEq

/-- Indexing a Go map: the zero value (nil pointer) for a missing key or a nil map. -/
def mapGet (m : Option (List (Int × Nat))) (pid : Int) : Option Nat :=
  match m with
  | none => none
  | some l => l.lookup pid

/-- The keys a range over the map visits; none for a nil map. -/
def mapKeys (m : Option (List (Int × Nat))) : List Int :=
  match m with
  | none => []
  | some l => l.map Prod.fst

/-- Builtin delete: a no-op on a nil map. -/
def mapDelete (m : Option (List (Int × Nat))) (pid : Int) : Option (List (Int × Nat)) :=
  match m with
  | none => none
  | some l => some (l.filter (fun e => e.1 ≠ pid))

/-- Apply f to the loop behind pointer p. -/
def onLoop (loops : List profilingLoop) (p : Nat) (f : profilingLoop → profilingLoop) :
    List profilingLoop :=
  loops.modify f p

/-- One iteration of the first loop of updateTargets. The loop returned by newProcess is
only held in the local variable proc: nothing is assigned to j.pid2process[pid]. -/
def visitTarget (st : javaComponent × List Int) (target : Target) : javaComponent × List Int :=
  match Go.Atoi (Target.get target labelProcessID) with
  | none => st
  | some pid =>
    match mapGet st.1.pid2process pid with
    | none =>
      ({ st.1 with loops := st.1.loops ++ [{ pid := pid, target := target, closed := false }] },
        pid :: st.2)
    | some p =>
      ({ st.1 with loops := onLoop st.1.loops p (fun l => { l with target := target }) },
        pid :: st.2)

/-- One iteration of the second loop of updateTargets. -/
def dropInactive (active : List Int) (j : javaComponent) (pid : Int) : javaComponent :=
  if active.contains pid then j
  else
    match mapGet j.pid2process pid with
    | none => j
    | some p =>
      { loops := onLoop j.loops p (fun l => { l with closed := true }),
        pid2process := mapDelete j.pid2process pid }

/-- Method updateTargets. -/
def javaComponent.updateTargets (j : javaComponent) (targets : List Target) : javaComponent :=
  let st := targets.foldl visitTarget (j, [])
  (mapKeys st.1.pid2process).foldl (dropInactive st.2) st.1

/-- The pid field of the loop behind pointer p. -/
def loopPid (loops : List profilingLoop) (p : Nat) : Int :=
  ((loops.get? p).map (fun l => l.pid)).getD 0

/-- Method stop: every loop in the map is closed and deleted under its own pid. -/
def javaComponent.stop (j : javaComponent) : javaComponent :=
  (mapKeys j.pid2process).foldl
    (fun j key =>
      match mapGet j.pid2process key with
      | none => j
      | some p =>
        { loops := onLoop j.loops p (fun l => { l with closed := true }),
          pid2process := mapDelete j.pid2process (loopPid j.loops p) })
    j

/-- The Build function of the registration, once profiler.Extract has succeeded: the
struct literal leaves pid2process nil. -/
def Build (targets : List Target) : javaComponent :=
  javaComponent.updateTargets { loops := [], pid2process := none } targets

/-- Method Update. -/
def javaComponent.Update (j : javaComponent) (targets : List Target) : javaComponent :=
  j.updateTargets targets

/-- Method Run up to its return on cancellation: the deferred stop runs, nil is returned. -/
def javaComponent.Run (j : javaComponent) : javaComponent := j.stop

/-- Build, then the given Update calls, then cancellation of Run. -/
def lifecycle (targets : List Target) (updates : List (List Target)) : javaComponent :=
  (updates.foldl javaComponent.Update (Build targets)).Run

/-- The pids of the targets whose label parses as an integer. -/
def validPids (targets : List Target) : List Int :=
  targets.filterMap (fun t => Go.Atoi (Target.get t labelProcessID))

end Java

namespace Flow

/-- Modelled from the spec: the Value of section 3, restricted to the scalars the
scenario of section 8 uses (the flow value model is not part of the sources). -/
inductive Value where
  | null : Value
  | num (n : Int) : Value
  | str (s : String) : Value
  deriving DecidableEq

/-- Modelled from the spec: an attribute expression of the configuration tree (section 6),
a literal or a dotted reference such as testcomponents.count.inc.count; the expression
language of the controller is not part of the sources. -/
inductive Expr where
  | lit (v : Value) : Expr
  | ref (path : List String) : Expr
  deriving DecidableEq

/-- Modelled from the spec: a named block of the configuration tree (section 6): a dotted
kind, an instance label and attribute expressions. -/
structure Stmt where
  kind : List String
  label : String
  attrs : List (String × Expr)
  deriving DecidableEq

/-- Modelled from the spec: a top-level entry of a configuration tree, a block or a
declare block with its body. -/
inductive Item where
  | block (s : Stmt) : Item
  | declare (name : String) (body : List Stmt) : Item
  deriving DecidableEq

/-- Modelled from the spec: a parsed configuration tree (section 6). -/
abbrev Config := List Item

/-- Modelled from the spec: the import sources (section 3) by file name, each with its
current parsed content. -/
abbrev Files := List (String × Config)

/-- Modelled from the spec: a Node of section 3: module-path prefix, identity, kind,
current arguments and current exports. -/
structure Node where
  scope : String
  id : String
  kind : List String
  args : List (String × Value)
  exports : List (String × Value)
  deriving DecidableEq

/-- Modelled from the spec: a lifecycle operation the Controller invoked on a node
(section 4.4). -/
inductive Call where
  | build (scope id : String) : Call
  | update (scope id : String) : Call
  | teardown (scope id : String) : Call
  deriving DecidableEq

/-- Modelled from the spec: the Controller of section 4.4 with the Module Registry of
section 4.5: the loaded configuration, the import sources, the live nodes and the
lifecycle operations invoked so far (package flow is not part of the sources). -/
structure Controller where
  config : Config
  files : Files
  nodes : List Node
  calls : List Call
  deriving DecidableEq

/-- Modelled from the spec: the registry of known component kinds (section 6), holding
the three kinds of package testcomponents the test uses. -/
def componentKinds : List (List String) :=
  [["testcomponents", "count"], ["testcomponents", "passthrough"],
   ["testcomponents", "summation"]]

/-- Modelled from the spec: numeric content of a Value, 0 otherwise. -/
def Value.toInt : Value → Int
  | .num n => n
  | _ => 0

/-- Modelled from the spec: field of an argument or export mapping, null when absent. -/
def field (m : List (String × Value)) (k : String) : Value := (m.lookup k).getD .null

/-- Modelled from the spec: the build operation of the three test components
(section 8, concrete scenario): a counter starts at 0, a pass-through exports its input,
a summation starts with total 0. -/
def buildExports (kind : List String) (args : List (String × Value)) : List (String × Value) :=
  if kind = ["testcomponents", "count"] then [("count", .num 0)]
  else if kind = ["testcomponents", "passthrough"] then [("output", field args "input")]
  else if kind = ["testcomponents", "summation"] then [("sum", .num 0), ("last_added", .num 0)]
  else []

/-- Modelled from the spec: the update operation of the three test components: a
pass-through exports its new input, a summation adds its new input to the running total
and records it as the last-added value. -/
def updateExports (kind : List String) (args : List (String × Value))
    (old : List (String × Value)) : List (String × Value) :=
  if kind = ["testcomponents", "passthrough"] then [("output", field args "input")]
  else if kind = ["testcomponents", "summation"] then
    [("sum", .num ((field old "sum").toInt + (field args "input").toInt)),
     ("last_added", field args "input")]
  else old

/-- Modelled from the spec: identity of a node (section 3), kind and instance label. -/
def Stmt.id (s : Stmt) : String := ".".intercalate (s.kind ++ [s.label])

/-- Modelled from the spec: the live node with the given module path and identity. -/
def findNode (nodes : List Node) (scope id : String) : Option Node :=
  nodes.find? (fun n => n.scope = scope ∧ n.id = id)

/-- Modelled from the spec: the Expression Evaluator of section 4.2 for literals,
argument references of a module instance and references to a node export; none is an
evaluation error. -/
def evalExpr (nodes : List Node) (scope : String) (bound : List (String × Value)) :
    Expr → Option Value
  | .lit v => some v
  | .ref path =>
    match path with
    | ["argument", name, "value"] => bound.lookup name
    | _ =>
      match findNode nodes scope (".".intercalate path.dropLast) with
      | none => none
      | some n => n.exports.lookup (path.getLastD "")

/-- Modelled from the spec: the computed arguments of a block, all its attribute
expressions evaluated; none if one fails. -/
def evalAttrs (nodes : List Node) (scope : String) (bound : List (String × Value)) :
    List (String × Expr) → Option (List (String × Value))
  | [] => some []
  | (k, e) :: rest =>
    match evalExpr nodes scope bound e, evalAttrs nodes scope bound rest with
    | some v, some vs => some ((k, v) :: vs)
    | _, _ => none

/-- Modelled from the spec: the node set keyed by identity (section 9): replace the node
with the identity of n, or append n. -/
def putNode (nodes : List Node) (n : Node) : List Node :=
  if (findNode nodes n.scope n.id).isSome then
    nodes.map (fun m => if m.scope = n.scope ∧ m.id = n.id then n else m)
  else nodes ++ [n]

/-- Modelled from the spec: the Controller on one component block (section 4.4): a new
node is built with its computed arguments, a retained node whose computed arguments
changed is updated, an unchanged node is left running; a node whose arguments fail to
evaluate keeps its previous exports. -/
def applyComponent (st : List Node × List Call) (scope : String)
    (bound : List (String × Value)) (s : Stmt) : List Node × List Call :=
  match evalAttrs st.1 scope bound s.attrs with
  | none => st
  | some args =>
    match findNode st.1 scope s.id with
    | none =>
      (putNode st.1 { scope := scope, id := s.id, kind := s.kind, args := args,
                      exports := buildExports s.kind args },
        st.2 ++ [.build scope s.id])
    | some n =>
      if n.args = args then st
      else
        (putNode st.1 { n with args := args, exports := updateExports s.kind args n.exports },
          st.2 ++ [.update scope s.id])

/-- Modelled from the spec: the declare block of a tree with the given name. -/
def findDeclare : Config → String → Option (List Stmt)
  | [], _ => none
  | .declare n body :: rest, name => if n = name then some body else findDeclare rest name
  | .block _ :: rest, name => findDeclare rest name

/-- Modelled from the spec: the file name of the import.file block of a tree with the
given label. -/
def findImport : Config → String → Option String
  | [], _ => none
  | .declare _ _ :: rest, ns => findImport rest ns
  | .block s :: rest, ns =>
    if s.kind = ["import", "file"] ∧ s.label = ns then
      match s.attrs.lookup "filename" with
      | some (.lit (.str f)) => some f
      | _ => none
    else findImport rest ns

/-- Modelled from the spec: resolution of a declaration reference (section 4.5): a single
name is a declare block of the tree; a longer path goes through the import block named by
its first segment into the current content of that import source, transitively. -/
def resolve (files : Files) : Config → List String → Option (List Stmt)
  | _, [] => none
  | cfg, [name] => findDeclare cfg name
  | cfg, ns :: rest =>
    match findImport cfg ns with
    | none => none
    | some f =>
      match files.lookup f with
      | none => none
      | some content => resolve files content rest

/-- Modelled from the spec: argument binding (section 4.5), the required arguments of a
declaration body that the call site does not bind. -/
def missingArgs (body : List Stmt) (bound : List (String × Value)) : List String :=
  (body.filter (fun s => s.kind = ["argument"]
      ∧ s.attrs.lookup "optional" ≠ some (.lit (.str "true"))
      ∧ (bound.lookup s.label).isNone)).map (fun s => s.label)

/-- Modelled from the spec: the node an expression references (section 3, Edge): the
path without its last segment, the export field. -/
def Expr.deps : Expr → List String
  | .lit _ => []
  | .ref path => [".".intercalate path.dropLast]

/-- Modelled from the spec: a block that references a declaration (section 4.1): its kind
is neither a registered component kind nor a built-in control block. -/
def Stmt.isModuleCall (s : Stmt) : Bool :=
  !(componentKinds.contains s.kind) && !(s.kind = ["import", "file"])
    && !(s.kind = ["argument"]) && !(s.kind = ["export"])

/-- Modelled from the spec: the producers of a block (section 3, Edge): the nodes its
attribute expressions reference and, for a call site of an imported declaration, the
block of kind import.file named by the first segment of its kind. -/
def Stmt.deps (s : Stmt) : List String :=
  (s.attrs.map (fun a => a.2.deps)).flatten
    ++ (if s.isModuleCall then [".".intercalate ["import", "file", s.kind.headD ""]] else [])

/-- Modelled from the spec: a block none of whose producers is still waiting. -/
def ready (remaining : List Stmt) (s : Stmt) : Bool :=
  s.deps.all (fun d => !((remaining.map Stmt.id).contains d))

/-- Modelled from the spec: the topological order of section 4.3 by repeated selection:
the next block is the first one in declaration order whose producers have all been
placed (stable tie-break); none when the remaining blocks form a cycle. -/
def topoAux : Nat → List Stmt → List Stmt → Option (List Stmt)
  | _, [], acc => some acc
  | 0, _ :: _, _ => none
  | n + 1, s0 :: rest, acc =>
    match (s0 :: rest).find? (ready (s0 :: rest)) with
    | none => none
    | some s => topoAux n ((s0 :: rest).erase s) (acc ++ [s])

/-- Modelled from the spec: TopoOrder of section 4.3 for a set of blocks; none is the
ConfigError of a dependency cycle. -/
def topoOrder (blocks : List Stmt) : Option (List Stmt) := topoAux blocks.length blocks []

/-- Modelled from the spec: one pass over the blocks of a declaration body, already in
topological order, for a module instance (sections 4.1 and 4.5): inner component blocks
go through the build/update path under the scope of the instance, export blocks are
evaluated against the inner nodes. -/
def applyBody (scope : String) (bound : List (String × Value)) :
    List Stmt → List Node × List Call → List (String × Value) →
      (List Node × List Call) × List (String × Value)
  | [], st, exps => (st, exps)
  | s :: rest, st, exps =>
    if s.kind = ["argument"] then applyBody scope bound rest st exps
    else if s.kind = ["export"] then
      match (s.attrs.lookup "value").bind (evalExpr st.1 scope bound) with
      | none => applyBody scope bound rest st exps
      | some v => applyBody scope bound rest st (exps ++ [(s.label, v)])
    else applyBody scope bound rest (applyComponent st scope bound s) exps

/-- Modelled from the spec: inner nodes of a module instance that its declaration no
longer contains are torn down (section 4.5). -/
def teardownMissing (scope : String) (body : List Stmt) (st : List Node × List Call) :
    List Node × List Call :=
  let gone := st.1.filter (fun n => n.scope = scope ∧ ¬ (body.map Stmt.id).contains n.id)
  (st.1.filter (fun n => ¬ (n.scope = scope ∧ ¬ (body.map Stmt.id).contains n.id)),
    st.2 ++ gone.map (fun n => Call.teardown n.scope n.id))

/-- Modelled from the spec: a call-site block that references a declaration (sections 4.1
and 4.5): it binds to the latest content of the declaration, the body is evaluated in
topological order, its inner nodes are keyed by identity under the scope of the instance,
and the exports of the instance are the export blocks of the declaration evaluated
against the inner nodes. A declaration that does not resolve, a cycle in its body, an
argument that fails to evaluate or a missing required argument leave the graph as it
was. -/
def applyModule (files : Files) (cfg : Config) (st : List Node × List Call) (s : Stmt) :
    List Node × List Call :=
  match resolve files cfg s.kind, evalAttrs st.1 "" [] s.attrs with
  | some body, some bound =>
    match topoOrder body with
    | none => st
    | some order =>
      if missingArgs body bound ≠ [] then st
      else
        let r := applyBody s.id bound order st []
        let st2 := teardownMissing s.id body r.1
        match findNode st2.1 "" s.id with
        | none =>
          (putNode st2.1 { scope := "", id := s.id, kind := s.kind, args := bound,
                           exports := r.2 }, st2.2 ++ [.build "" s.id])
        | some n => (putNode st2.1 { n with args := bound, exports := r.2 }, st2.2)
  | _, _ => st

/-- Modelled from the spec: the blocks of a configuration tree that become nodes, in
declaration order. -/
def blocksOf : Config → List Stmt
  | [] => []
  | .declare _ _ :: rest => blocksOf rest
  | .block s :: rest => s :: blocksOf rest

/-- Modelled from the spec: the Controller on one block of the outer configuration
(section 4.1): an import block has no component to run, a block of a registered kind is
one node, any other block is a module instance. -/
def applyBlock (files : Files) (cfg : Config) (st : List Node × List Call) (s : Stmt) :
    List Node × List Call :=
  if s.kind = ["import", "file"] then st
  else if componentKinds.contains s.kind then applyComponent st "" [] s
  else applyModule files cfg st s

/-- Modelled from the spec: one evaluation round (sections 4.3 and 4.4): the blocks are
visited in topological order, every producer before its consumers, so that a node whose
computed arguments changed is updated once, from the new exports of its producers, and a
node whose computed arguments did not change is left alone. A dependency cycle is a
ConfigError: the round is rejected and the graph is retained unchanged. -/
def evalRound (files : Files) (cfg : Config) (st : List Node × List Call) :
    List Node × List Call :=
  match topoOrder (blocksOf cfg) with
  | none => st
  | some order => order.foldl (applyBlock files cfg) st

/-- Modelled from the spec: the initial load (section 4.4), what LoadSource and Run of
the controller do in the test: every node of the configuration is built. -/
def LoadSource (cfg : Config) (files : Files) : Controller :=
  let st := evalRound files cfg ([], [])
  { config := cfg, files := files, nodes := st.1, calls := st.2 }

/-- Modelled from the spec: one firing of the interval of every counter node (section 8: a
counter emits increasing integers up to max), followed by the evaluation round its export
change triggers. -/
def Controller.tick (c : Controller) : Controller :=
  let emitted := c.nodes.map (fun n =>
    if n.kind = ["testcomponents", "count"]
        ∧ (field n.exports "count").toInt < (field n.args "max").toInt then
      { n with exports := [("count", .num ((field n.exports "count").toInt + 1))] }
    else n)
  let st := evalRound c.files c.config (emitted, c.calls)
  { c with nodes := st.1, calls := st.2 }

/-- Modelled from the spec: an import source reports new content (section 4.5): the
content of the file is replaced and the graph is re-evaluated; the loaded configuration
is not touched. -/
def Controller.writeFile (c : Controller) (name : String) (content : Config) : Controller :=
  let files := (name, content) :: c.files.filter (fun f => f.1 ≠ name)
  let st := evalRound files c.config (c.nodes, c.calls)
  { c with files := files, nodes := st.1, calls := st.2 }

/-- Modelled from the spec: the health/debug surface of section 6, the current export of
a node of the outer configuration, as getExport of the test reads it. -/
def Controller.getExport (c : Controller) (id field_ : String) : Option Value :=
  (findNode c.nodes "" id).bind (fun n => n.exports.lookup field_)

/-- The body of the declaration test of the test cases, with the given export
expression. -/
def bodyTest (exportValue : Expr) : List Stmt :=
  [ { kind := ["argument"], label := "input", attrs := [("optional", .lit (.str "false"))] },
    { kind := ["testcomponents", "passthrough"], label := "pt",
      attrs := [("input", .ref ["argument", "input", "value"]), ("lag", .lit (.str "1ms"))] },
    { kind := ["export"], label := "output", attrs := [("value", exportValue)] } ]

/-- The export expression of the declaration before the swap. -/
def exportV1 : Expr := .ref ["testcomponents", "passthrough", "pt", "output"]

/-- The export expression updateModule writes. -/
def exportV2 : Expr := .lit (.num (-10))

/-- The module of test case TestImportModule, and other_module of TestNestedImportModule. -/
def moduleV1 : Config := [.declare "test" (bodyTest exportV1)]

/-- What updateModule of both test cases writes. -/
def moduleV2 : Config := [.declare "test" (bodyTest exportV2)]

/-- File my_module of test case TestNestedImportModule. -/
def nestedModule : Config :=
  [.block { kind := ["import", "file"], label := "otherModule",
            attrs := [("filename", .lit (.str "other_module"))] }]

/-- The config of the test cases; ns is the path of the declaration at the call site. -/
def testConfig (ns : List String) : Config :=
  [ .block { kind := ["testcomponents", "count"], label := "inc",
             attrs := [("frequency", .lit (.str "10ms")), ("max", .lit (.num 10))] },
    .block { kind := ["import", "file"], label := "testImport",
             attrs := [("filename", .lit (.str "my_module"))] },
    .block { kind := ns, label := "myModule",
             attrs := [("input", .ref ["testcomponents", "count", "inc", "count"])] },
    .block { kind := ["testcomponents", "summation"], label := "sum",
             attrs := [("input", .ref (ns ++ ["myModule", "output"]))] } ]

/-- Column config of the test table: the path of the declaration at the call site. -/
def testNs (nested : Bool) : List String :=
  if nested then ["testImport", "otherModule", "test"] else ["testImport", "test"]

/-- Columns module and otherModule of the test table: the files written before the
controller is started, for TestImportModule and for TestNestedImportModule; m1 is the
file that holds the declaration. -/
def testFiles (nested : Bool) (m1 : Config) : Files :=
  if nested then [("my_module", nestedModule), ("other_module", m1)] else [("my_module", m1)]

/-- Column updateFile of the test table. -/
def testUpdateFile (nested : Bool) : String := if nested then "other_module" else "my_module"

/-- The test up to the first Eventually: the configuration is loaded and the interval of
the counter fires the given number of times. -/
def before (nested : Bool) (cfg m1 : Config) (ticks : Nat) : Controller :=
  Nat.iterate Controller.tick ticks (LoadSource cfg (testFiles nested m1))

/-- The test after the file named by updateFile has been rewritten with content m2. -/
def after (nested : Bool) (cfg m1 m2 : Config) (ticks : Nat) : Controller :=
  (before nested cfg m1 ticks).writeFile (testUpdateFile nested) m2

/-- The checks of the scenario on one run, once the counter has fired 10 times: further
firings change nothing, last-added is 10 before and -10 after the swap, the counter
still exports 10, the swap causes one update of the summation and nothing else, the
counter was built once, and further firings after the swap change nothing. -/
def scenarioHolds (nested : Bool) (cfg m1 m2 : Config) : Bool :=
  decide ((before nested cfg m1 10).tick = before nested cfg m1 10)
  && decide ((before nested cfg m1 10).getExport "testcomponents.summation.sum" "last_added"
      = some (.num 10))
  && decide ((after nested cfg m1 m2 10).getExport "testcomponents.summation.sum"
      "last_added" = some (.num (-10)))
  && decide ((after nested cfg m1 m2 10).getExport "testcomponents.count.inc" "count"
      = some (.num 10))
  && decide ((after nested cfg m1 m2 10).calls
      = (before nested cfg m1 10).calls ++ [.update "" "testcomponents.summation.sum"])
  && decide (((after nested cfg m1 m2 10).calls.filter
      (fun c => c = .build "" "testcomponents.count.inc")).length = 1)
  && decide ((after nested cfg m1 m2 10).tick = after nested cfg m1 m2 10)

end Flow

/-! ## Theorems -/

namespace Flow


theorem contains_iff_mem (l : List String) (d : String) :
    l.contains d = true ↔ d ∈ l := by
  simp

theorem ready_perm (l1 l2 : List Stmt) (s : Stmt) (h : l1.Perm l2) :
    ready l1 s = ready l2 s := by
  unfold ready
  congr 1
  funext d
  have hm : d ∈ l1.map Stmt.id ↔ d ∈ l2.map Stmt.id := (h.map Stmt.id).mem_iff
  by_cases hd : d ∈ l1.map Stmt.id
  · have hd2 := hm.mp hd
    rw [(contains_iff_mem _ _).mpr hd, (contains_iff_mem _ _).mpr hd2]
  · have hd2 : d ∉ l2.map Stmt.id := fun k => hd (hm.mpr k)
    have e1 : (l1.map Stmt.id).contains d = false := by
      rw [← Bool.not_eq_true, contains_iff_mem]; exact hd
    have e2 : (l2.map Stmt.id).contains d = false := by
      rw [← Bool.not_eq_true, contains_iff_mem]; exact hd2
    rw [e1, e2]

theorem topoAux_sound : ∀ (n : Nat) (remaining acc order : List Stmt),
    topoAux n remaining acc = some order →
    ∃ tail : List Stmt, order = acc ++ tail ∧ tail.Perm remaining ∧
      ∀ pre s post, tail = pre ++ s :: post → ready (s :: post) s = true := by
  intro n
  induction n with
  | zero =>
    intro remaining acc order h
    cases remaining with
    | nil =>
      simp only [topoAux, Option.some.injEq] at h
      refine ⟨[], by simp [h], List.Perm.refl _, ?_⟩
      intro pre s post hp
      cases pre <;> simp at hp
    | cons s0 rest => simp [topoAux] at h
  | succ n ih =>
    intro remaining acc order h
    cases remaining with
    | nil =>
      simp only [topoAux, Option.some.injEq] at h
      refine ⟨[], by simp [h], List.Perm.refl _, ?_⟩
      intro pre s post hp
      cases pre <;> simp at hp
    | cons s0 rest =>
      simp only [topoAux] at h
      cases hf : (s0 :: rest).find? (ready (s0 :: rest)) with
      | none => rw [hf] at h; simp at h
      | some s =>
        rw [hf] at h
        simp only at h
        have hmem : s ∈ s0 :: rest := List.mem_of_find?_eq_some hf
        have hready : ready (s0 :: rest) s = true := List.find?_some hf
        obtain ⟨tail, ho, hperm, hsorted⟩ := ih _ _ _ h
        have hp2 : (s :: tail).Perm (s0 :: rest) :=
          (List.Perm.cons s hperm).trans (List.perm_cons_erase hmem).symm
        refine ⟨s :: tail, by simp [ho], hp2, ?_⟩
        intro pre t post hp
        cases pre with
        | nil =>
          simp only [List.nil_append, List.cons.injEq] at hp
          obtain ⟨rfl, rfl⟩ := hp
          rw [ready_perm _ _ _ hp2]
          exact hready
        | cons p pre2 =>
          simp only [List.cons_append, List.cons.injEq] at hp
          exact hsorted pre2 t post hp.2

/-- The order of an evaluation round is topological: it holds every block once, and no
block is placed while one of its producers is still waiting, so every producer is
evaluated before its consumers. -/
theorem topoOrder_sound (blocks order : List Stmt) (h : topoOrder blocks = some order) :
    order.Perm blocks ∧
    ∀ pre s post, order = pre ++ s :: post →
      ∀ d ∈ s.deps, d ∉ (s :: post).map Stmt.id := by
  obtain ⟨tail, ho, hperm, hsorted⟩ := topoAux_sound _ _ _ _ h
  rw [List.nil_append] at ho
  subst ho
  refine ⟨hperm, ?_⟩
  intro pre s post hp d hd hmem
  have hr := hsorted pre s post hp
  unfold ready at hr
  rw [List.all_eq_true] at hr
  have := hr d hd
  rw [Bool.not_eq_true', ← Bool.not_eq_true, contains_iff_mem] at this
  exact this hmem

theorem tick_config (c : Controller) : c.tick.config = c.config := by
  unfold Controller.tick
  rfl

theorem writeFile_config (c : Controller) (name : String) (content : Config) :
    (c.writeFile name content).config = c.config := by
  unfold Controller.writeFile
  rfl

theorem before_config (nested : Bool) (cfg m1 : Config) (n : Nat) :
    (before nested cfg m1 n).config = cfg := by
  induction n with
  | zero =>
    unfold before LoadSource
    rfl
  | succ n ih =>
    unfold before at ih ⊢
    rw [Function.iterate_succ_apply', tick_config]
    exact ih

theorem scenario_body_orders_direct :
    ((List.permutations' (bodyTest exportV1)).all
      (fun b1 => scenarioHolds false (testConfig (testNs false)) [.declare "test" b1]
        moduleV2) &&
    (List.permutations' (bodyTest exportV2)).all
      (fun b2 => scenarioHolds false (testConfig (testNs false)) moduleV1
        [.declare "test" b2])) = true := by
  decide!

theorem scenario_body_orders_nested :
    ((List.permutations' (bodyTest exportV1)).all
      (fun b1 => scenarioHolds true (testConfig (testNs true)) [.declare "test" b1]
        moduleV2) &&
    (List.permutations' (bodyTest exportV2)).all
      (fun b2 => scenarioHolds true (testConfig (testNs true)) moduleV1
        [.declare "test" b2])) = true := by
  decide!

theorem before_saturated (nested : Bool) (cfg m1 : Config)
    (h : (before nested cfg m1 10).tick = before nested cfg m1 10) (j : Nat) :
    before nested cfg m1 (10 + j) = before nested cfg m1 10 := by
  unfold before at h ⊢
  rw [Nat.add_comm, Function.iterate_add_apply]
  exact Function.iterate_fixed h j

/-- What scenarioHolds checks, for any number of firings from 10 on. -/
theorem scenario_unfold (nested : Bool) (cfg m1 m2 : Config) (j : Nat)
    (h : scenarioHolds nested cfg m1 m2 = true) :
    (before nested cfg m1 (10 + j)).getExport "testcomponents.summation.sum" "last_added"
      = some (.num 10) ∧
    (after nested cfg m1 m2 (10 + j)).getExport "testcomponents.summation.sum" "last_added"
      = some (.num (-10)) ∧
    (before nested cfg m1 (10 + j)).config = cfg ∧
    (after nested cfg m1 m2 (10 + j)).config = cfg ∧
    (after nested cfg m1 m2 (10 + j)).getExport "testcomponents.count.inc" "count"
      = some (.num 10) ∧
    (after nested cfg m1 m2 (10 + j)).calls
      = (before nested cfg m1 (10 + j)).calls
          ++ [.update "" "testcomponents.summation.sum"] ∧
    ((after nested cfg m1 m2 (10 + j)).calls.filter
      (fun c => c = .build "" "testcomponents.count.inc")).length = 1 ∧
    (∀ m : Nat, Nat.iterate Controller.tick m (after nested cfg m1 m2 (10 + j))
      = after nested cfg m1 m2 (10 + j)) := by
  simp only [scenarioHolds, Bool.and_eq_true, decide_eq_true_eq] at h
  obtain ⟨⟨⟨⟨⟨⟨h1, h2⟩, h3⟩, h5⟩, h6⟩, h7⟩, h8⟩ := h
  have hb := before_saturated nested cfg m1 h1 j
  have ha : after nested cfg m1 m2 (10 + j) = after nested cfg m1 m2 10 := by
    unfold after; rw [hb]
  have h4 : (after nested cfg m1 m2 10).config = cfg := by
    unfold after
    rw [writeFile_config]
    exact before_config nested cfg m1 10
  rw [ha, hb]
  exact ⟨h2, h3, before_config nested cfg m1 10, h4, h5, h6, h7,
    fun m => Function.iterate_fixed h8 m⟩

/-- The order of the blocks inside the declaration does not matter either: for every
declaration order of the body of the declaration before the swap, and for every
declaration order of the body written by the swap, last-added is 10 before the swap and
-10 after it, for any number of firings of the counter from 10 on. -/
theorem hot_swap_any_body_order (nested : Bool) (b1 b2 : List Stmt) (j : Nat)
    (hb1 : b1.Perm (bodyTest exportV1)) (hb2 : b2.Perm (bodyTest exportV2)) :
    ((before nested (testConfig (testNs nested)) [.declare "test" b1] (10 + j)).getExport
        "testcomponents.summation.sum" "last_added" = some (.num 10) ∧
      (after nested (testConfig (testNs nested)) [.declare "test" b1] moduleV2
        (10 + j)).getExport "testcomponents.summation.sum" "last_added"
        = some (.num (-10))) ∧
    ((before nested (testConfig (testNs nested)) moduleV1 (10 + j)).getExport
        "testcomponents.summation.sum" "last_added" = some (.num 10) ∧
      (after nested (testConfig (testNs nested)) moduleV1 [.declare "test" b2]
        (10 + j)).getExport "testcomponents.summation.sum" "last_added"
        = some (.num (-10))) := by
  have h1 := List.mem_permutations'.mpr hb1
  have h2 := List.mem_permutations'.mpr hb2
  cases nested with
  | false =>
    have h := scenario_body_orders_direct
    rw [Bool.and_eq_true, List.all_eq_true, List.all_eq_true] at h
    have k1 := scenario_unfold false _ _ _ j (h.1 b1 h1)
    have k2 := scenario_unfold false _ _ _ j (h.2 b2 h2)
    exact ⟨⟨k1.1, k1.2.1⟩, ⟨k2.1, k2.2.1⟩⟩
  | true =>
    have h := scenario_body_orders_nested
    rw [Bool.and_eq_true, List.all_eq_true, List.all_eq_true] at h
    have k1 := scenario_unfold true _ _ _ j (h.1 b1 h1)
    have k2 := scenario_unfold true _ _ _ j (h.2 b2 h2)
    exact ⟨⟨k1.1, k1.2.1⟩, ⟨k2.1, k2.2.1⟩⟩

end Flow

namespace Process

variable {E P : Type}

theorem loop_procFS (cp : List P → List Target) (jn : List Target → List Target → List Target)
    (evs : List (Event E P)) : ∀ (c : Component) (out : List (List Target)),
    (loop cp jn c out evs).c.procFS = c.procFS ∧
    (loop cp jn c out evs).c.refreshInterval = c.refreshInterval := by
  induction evs with
  | nil => intro c out; simp [loop]
  | cons ev rest ih =>
    intro c out
    cases ev with
    | cancelled => simp [loop]
    | tick d =>
      cases h : d c.procFS with
      | error e => simp [loop, h]
      | ok ps => simp only [loop, h]; exact ih _ _
    | joinUpdate jt => simp only [loop]; exact ih _ _

theorem loop_ret_none (cp : List P → List Target) (jn : List Target → List Target → List Target)
    (evs : List (Event E P)) : ∀ (c : Component) (out : List (List Target)),
    ((loop cp jn c out evs).ret = none ↔ evs.all (quiet c.procFS) = true) := by
  induction evs with
  | nil => intro c out; simp [loop]
  | cons ev rest ih =>
    intro c out
    cases ev with
    | cancelled => simp [loop, quiet]
    | tick d =>
      cases h : d c.procFS with
      | error e => simp [loop, h, quiet, Except.isOk, Except.toBool]
      | ok ps =>
        simp only [loop, h, List.all_cons, quiet, Except.isOk, Except.toBool, Bool.true_and]
        exact ih _ _
    | joinUpdate jt =>
      simp only [loop, List.all_cons, quiet, Bool.true_and]
      exact ih _ _

theorem loop_ret_nil (cp : List P → List Target) (jn : List Target → List Target → List Target)
    (evs : List (Event E P)) : ∀ (c : Component) (out : List (List Target)),
    ((loop cp jn c out evs).ret = some (Exit.returned none) ↔
      ∃ pre post, evs = pre ++ Event.cancelled :: post ∧ pre.all (quiet c.procFS) = true) := by
  induction evs with
  | nil => intro c out; simp [loop]
  | cons ev rest ih =>
    intro c out
    cases ev with
    | cancelled =>
      simp only [loop, true_iff]
      exact ⟨[], rest, rfl, rfl⟩
    | tick d =>
      cases h : d c.procFS with
      | error e =>
        simp only [loop, h]
        constructor
        · intro h0; simp at h0
        · rintro ⟨pre, post, hev, hq⟩
          cases pre with
          | nil => simp at hev
          | cons p pre =>
            simp only [List.cons_append, List.cons.injEq] at hev
            obtain ⟨rfl, -⟩ := hev
            simp [quiet, h, Except.isOk, Except.toBool] at hq
      | ok ps =>
        simp only [loop, h]
        rw [ih]
        constructor
        · rintro ⟨pre, post, hev, hq⟩
          refine ⟨Event.tick d :: pre, post, by simp [hev], ?_⟩
          simpa [quiet, h, Except.isOk, Except.toBool] using hq
        · rintro ⟨pre, post, hev, hq⟩
          cases pre with
          | nil => simp at hev
          | cons p pre =>
            simp only [List.cons_append, List.cons.injEq] at hev
            obtain ⟨rfl, hrest⟩ := hev
            refine ⟨pre, post, hrest, ?_⟩
            simpa [quiet, h, Except.isOk, Except.toBool] using hq
    | joinUpdate jt =>
      simp only [loop]
      rw [ih]
      constructor
      · rintro ⟨pre, post, hev, hq⟩
        refine ⟨Event.joinUpdate jt :: pre, post, by simp [hev], ?_⟩
        simpa [quiet] using hq
      · rintro ⟨pre, post, hev, hq⟩
        cases pre with
        | nil => simp at hev
        | cons p pre =>
          simp only [List.cons_append, List.cons.injEq] at hev
          obtain ⟨rfl, hrest⟩ := hev
          refine ⟨pre, post, hrest, ?_⟩
          simpa [quiet] using hq

theorem loop_ret_err (cp : List P → List Target) (jn : List Target → List Target → List Target)
    (e : E) (evs : List (Event E P)) : ∀ (c : Component) (out : List (List Target)),
    ((loop cp jn c out evs).ret = some (Exit.returned (some e)) ↔
      ∃ pre d post, evs = pre ++ Event.tick d :: post ∧ pre.all (quiet c.procFS) = true ∧
        d c.procFS = Except.error e) := by
  induction evs with
  | nil => intro c out; simp [loop]
  | cons ev rest ih =>
    intro c out
    cases ev with
    | cancelled =>
      simp only [loop]
      constructor
      · intro h0; simp at h0
      · rintro ⟨pre, d, post, hev, hq, -⟩
        cases pre with
        | nil => simp at hev
        | cons p pre =>
          simp only [List.cons_append, List.cons.injEq] at hev
          obtain ⟨rfl, -⟩ := hev
          simp [quiet] at hq
    | tick d =>
      cases h : d c.procFS with
      | error e1 =>
        simp only [loop, h]
        constructor
        · intro h0
          simp only [Option.some.injEq, Exit.returned.injEq] at h0
          subst h0
          exact ⟨[], d, rest, rfl, rfl, h⟩
        · rintro ⟨pre, d1, post, hev, hq, hd⟩
          cases pre with
          | nil =>
            simp only [List.nil_append, List.cons.injEq, Event.tick.injEq] at hev
            obtain ⟨rfl, -⟩ := hev
            rw [h] at hd
            simp only [Except.error.injEq] at hd
            subst hd; rfl
          | cons p pre =>
            simp only [List.cons_append, List.cons.injEq] at hev
            obtain ⟨rfl, -⟩ := hev
            simp [quiet, h, Except.isOk, Except.toBool] at hq
      | ok ps =>
        simp only [loop, h]
        rw [ih]
        constructor
        · rintro ⟨pre, d1, post, hev, hq, hd⟩
          refine ⟨Event.tick d :: pre, d1, post, by simp [hev], ?_, hd⟩
          simpa [quiet, h, Except.isOk, Except.toBool] using hq
        · rintro ⟨pre, d1, post, hev, hq, hd⟩
          cases pre with
          | nil =>
            simp only [List.nil_append, List.cons.injEq, Event.tick.injEq] at hev
            obtain ⟨rfl, -⟩ := hev
            rw [h] at hd; simp at hd
          | cons p pre =>
            simp only [List.cons_append, List.cons.injEq] at hev
            obtain ⟨rfl, hrest⟩ := hev
            refine ⟨pre, d1, post, hrest, ?_, hd⟩
            simpa [quiet, h, Except.isOk, Except.toBool] using hq
    | joinUpdate jt =>
      simp only [loop]
      rw [ih]
      constructor
      · rintro ⟨pre, d1, post, hev, hq, hd⟩
        refine ⟨Event.joinUpdate jt :: pre, d1, post, by simp [hev], ?_, hd⟩
        simpa [quiet] using hq
      · rintro ⟨pre, d1, post, hev, hq, hd⟩
        cases pre with
        | nil => simp at hev
        | cons p pre =>
          simp only [List.cons_append, List.cons.injEq] at hev
          obtain ⟨rfl, hrest⟩ := hev
          refine ⟨pre, d1, post, hrest, ?_, hd⟩
          simpa [quiet] using hq


/-- C2 (counterexample): with a refresh interval of 0, a successful initial discover call
and a cancellation as the first event, Run has stopped by the panic of time.NewTicker and
has not returned nil. -/
theorem Run_panics_on_zero_interval :
    (sampleDiscover (New sampleArgsZero).procFS).isOk = true ∧
    (Run sampleConvert sampleJoin (New sampleArgsZero) sampleDiscover
        ([] ++ Event.cancelled :: [])).ret = some Exit.panicked ∧
    (Run sampleConvert sampleJoin (New sampleArgsZero) sampleDiscover
        ([] ++ Event.cancelled :: [])).ret ≠ some (Exit.returned none) := by
  refine ⟨rfl, rfl, ?_⟩
  intro h
  cases h

/-- C2 (amended): for a positive refresh interval, Run returns nil exactly when the loop
reaches a cancellation after the initial discover call and every earlier tick succeeded;
it returns the error e exactly when the first failing discover call (the initial one or
one made on a tick reached by the loop) fails with e; and it is still running exactly
when no cancellation and no failing discover call was observed, so it never returns
after a successful tick or a join update. -/
theorem Run_returns_only_on_cancel_or_discover_error (cp : List P → List Target)
    (jn : List Target → List Target → List Target) (c : Component)
    (d0 : String → Except E (List P)) (evs : List (Event E P))
    (hr : 0 < c.refreshInterval) :
    ((Run cp jn c d0 evs).ret = some (Exit.returned none) ↔
      (d0 c.procFS).isOk = true ∧
      ∃ pre post, evs = pre ++ Event.cancelled :: post ∧ pre.all (quiet c.procFS) = true) ∧
    (∀ e : E, (Run cp jn c d0 evs).ret = some (Exit.returned (some e)) ↔
      d0 c.procFS = Except.error e ∨
      ((d0 c.procFS).isOk = true ∧
        ∃ pre d post, evs = pre ++ Event.tick d :: post ∧ pre.all (quiet c.procFS) = true ∧
          d c.procFS = Except.error e)) ∧
    ((Run cp jn c d0 evs).ret = none ↔
      (d0 c.procFS).isOk = true ∧ evs.all (quiet c.procFS) = true) := by
  have hr2 : ¬ (c.refreshInterval ≤ 0) := not_le.mpr hr
  cases h : d0 c.procFS with
  | error e0 =>
    refine ⟨?_, ?_, ?_⟩
    · simp [Run, h, Except.isOk, Except.toBool]
    · intro e
      simp only [Run, h, Option.some.injEq, Exit.returned.injEq, Except.error.injEq,
        Except.isOk, Except.toBool, Bool.false_eq_true, false_and, or_false]
    · simp [Run, h, Except.isOk, Except.toBool]
  | ok ps =>
    refine ⟨?_, ?_, ?_⟩
    · simp only [Run, h, hr2, if_false, Except.isOk, Except.toBool, true_and]
      exact loop_ret_nil cp jn evs _ _
    · intro e
      simp only [Run, h, hr2, if_false, Except.isOk, Except.toBool, true_and, false_or,
        reduceCtorEq]
      exact loop_ret_err cp jn e evs _ _
    · simp only [Run, h, hr2, if_false, Except.isOk, Except.toBool, true_and]
      exact loop_ret_none cp jn evs _ _

/-- Witness for C2: interval 14, one successful tick, then a cancellation. -/
theorem Run_returns_only_on_cancel_or_discover_error_witness :
    (0 : Int) < (New sampleArgs0).refreshInterval ∧
    ((Run sampleConvert sampleJoin (New sampleArgs0) sampleDiscover
        (sampleEvents ++ [Event.cancelled])).ret = some (Exit.returned none) ↔
      (sampleDiscover (New sampleArgs0).procFS).isOk = true ∧
      ∃ pre post, sampleEvents ++ [Event.cancelled] = pre ++ Event.cancelled :: post ∧
        pre.all (quiet (New sampleArgs0).procFS) = true) ∧
    (Run sampleConvert sampleJoin (New sampleArgs0) sampleDiscover
        (sampleEvents ++ [Event.cancelled])).ret = some (Exit.returned none) :=
  ⟨by decide,
    (Run_returns_only_on_cancel_or_discover_error sampleConvert sampleJoin (New sampleArgs0)
      sampleDiscover (sampleEvents ++ [Event.cancelled]) (by decide)).1,
    rfl⟩

end Process

namespace Metrics

/-- C3: Run reaches its select, Update is called and takes c.mut, then the ticker case
fires: Run is blocked at c.mut.Lock() in generateNewSet(false) while Update holds c.mut
blocked sending on c.argsUpdate; no action is enabled in that state, so this Update call
never returns. The same happens, without a tick, when Update takes c.mut while Run is
between two lock sections. -/
theorem update_deadlocks_with_run :
    exec [.runStep, .runStep, .runStep, .runStep, .call, .updStep, .tick] initSched
      = some { run := .genLock false, upd := .atSend, mutHolder := some .update, returns := 0 } ∧
    allActions.all (fun a =>
      (step a { run := .genLock false, upd := .atSend, mutHolder := some .update,
                returns := 0 }).isNone) = true ∧
    exec [.runStep, .runStep, .call, .updStep] initSched
      = some { run := .loopLock, upd := .atSend, mutHolder := some .update, returns := 0 } ∧
    allActions.all (fun a =>
      (step a { run := .loopLock, upd := .atSend, mutHolder := some .update,
                returns := 0 }).isNone) = true := by
  decide

theorem allActions_complete (a : Action) : a ∈ allActions := by
  cases a <;> simp [allActions]

end Metrics

namespace Java

theorem visitTarget_nil (loops : List profilingLoop) (active : List Int) (t : Target) :
    ∃ loops2 active2, visitTarget (⟨loops, none⟩, active) t = (⟨loops2, none⟩, active2) ∧
      (loops.all (fun l => !l.closed) = true → loops2.all (fun l => !l.closed) = true) := by
  unfold visitTarget
  cases Go.Atoi (Target.get t labelProcessID) with
  | none => exact ⟨loops, active, rfl, id⟩
  | some pid =>
    refine ⟨loops ++ [⟨pid, t, false⟩], pid :: active, rfl, ?_⟩
    intro h
    simp [List.all_append, h]

theorem foldl_visitTarget_nil (ts : List Target) :
    ∀ (loops : List profilingLoop) (active : List Int),
    ∃ loops2 active2, ts.foldl visitTarget (⟨loops, none⟩, active) = (⟨loops2, none⟩, active2) ∧
      (loops.all (fun l => !l.closed) = true → loops2.all (fun l => !l.closed) = true) := by
  induction ts with
  | nil => intro loops active; exact ⟨loops, active, rfl, id⟩
  | cons t rest ih =>
    intro loops active
    obtain ⟨l1, a1, h1, hc1⟩ := visitTarget_nil loops active t
    obtain ⟨l2, a2, h2, hc2⟩ := ih l1 a1
    exact ⟨l2, a2, by rw [List.foldl_cons, h1, h2], fun h => hc2 (hc1 h)⟩

theorem updateTargets_nil (loops : List profilingLoop) (ts : List Target) :
    ∃ loops2, javaComponent.updateTargets ⟨loops, none⟩ ts = ⟨loops2, none⟩ ∧
      (loops.all (fun l => !l.closed) = true → loops2.all (fun l => !l.closed) = true) := by
  obtain ⟨l2, a2, h2, hc2⟩ := foldl_visitTarget_nil ts loops []
  refine ⟨l2, ?_, hc2⟩
  simp [javaComponent.updateTargets, h2, mapKeys]

/-- Whatever the targets and updates are, pid2process is the nil map when Run returns and
no profilingLoop has been closed. -/
theorem lifecycle_never_closes (targets : List Target) (updates : List (List Target)) :
    (lifecycle targets updates).pid2process = none ∧
    (lifecycle targets updates).loops.all (fun l => !l.closed) = true := by
  have hB : ∃ l0, Build targets = ⟨l0, none⟩ ∧ l0.all (fun l => !l.closed) = true := by
    obtain ⟨l0, h0, hc0⟩ := updateTargets_nil [] targets
    exact ⟨l0, h0, hc0 rfl⟩
  obtain ⟨l0, h0, hc0⟩ := hB
  have hU : ∀ (us : List (List Target)) (l : List profilingLoop),
      l.all (fun l => !l.closed) = true →
      ∃ l2, us.foldl javaComponent.Update ⟨l, none⟩ = ⟨l2, none⟩ ∧
        l2.all (fun l => !l.closed) = true := by
    intro us
    induction us with
    | nil => intro l hl; exact ⟨l, rfl, hl⟩
    | cons u rest ih =>
      intro l hl
      obtain ⟨l1, h1, hc1⟩ := updateTargets_nil l u
      obtain ⟨l2, h2, hc2⟩ := ih l1 (hc1 hl)
      exact ⟨l2, by rw [List.foldl_cons, javaComponent.Update, h1, h2], hc2⟩
  obtain ⟨l2, h2, hc2⟩ := hU updates l0 hc0
  unfold lifecycle
  rw [h0, h2]
  simp [javaComponent.Run, javaComponent.stop, mapKeys, hc2]

/-- C4: Build with one target for pid 1, then cancellation: when Run returns, the
profilingLoop created by newProcess for pid 1 has not been closed (pid2process is the
nil map throughout, so stop finds nothing to close). -/
theorem lifecycle_leaves_loop_open :
    lifecycle [[("__process_pid__", "1")]] []
      = { loops := [{ pid := 1, target := [("__process_pid__", "1")], closed := false }],
          pid2process := none } := by
  decide

/-- C9: after Build with one target for pid 1 and an Update with the same target, the
key set of pid2process is empty although pid 1 is active, and newProcess has been called
twice for pid 1 (two open loops) instead of one newProcess and one update. -/
theorem updateTargets_tracks_nothing :
    validPids [[("__process_pid__", "1")]] = [1] ∧
    mapKeys ((Build [[("__process_pid__", "1")]]).Update [[("__process_pid__", "1")]]).pid2process
      = [] ∧
    ((Build [[("__process_pid__", "1")]]).Update [[("__process_pid__", "1")]]).loops
      = [{ pid := 1, target := [("__process_pid__", "1")], closed := false },
         { pid := 1, target := [("__process_pid__", "1")], closed := false }] := by
  decide

end Java

namespace Metrics

theorem snappyEncode_nil (enc : List Nat → List Nat) (src : List Nat) :
    (snappyEncode enc [] src).1 = [] := by
  simp [snappyEncode, maxEncodedLen]

theorem generateData_buf_nil (enc : List Nat → List Nat) (i : Instance) (n : Int)
    (h : i.buf = []) : (i.generateData enc n).buf = [] := by
  simp [Instance.generateData, h, snappyEncode_nil]

theorem churn_buf (i j : Instance) (c : F32) (h : i.churn c = some j) : j.buf = i.buf := by
  unfold Instance.churn at h
  split_ifs at h
  · simp only [Option.some.injEq] at h; rw [← h]
  · cases ha : i.churnAdjust c with
    | none => simp [ha] at h
    | some a => simp only [ha, Option.some.injEq] at h; rw [← h]

theorem allSome_forall {α : Type} (p : α → Prop) :
    ∀ (l : List (Option α)) (r : List α), allSome l = some r →
      (∀ x ∈ l, ∀ a, x = some a → p a) → ∀ a ∈ r, p a := by
  intro l
  induction l with
  | nil => intro r h _ a ha; simp [allSome] at h; subst h; simp at ha
  | cons x rest ih =>
    intro r h hp a ha
    cases x with
    | none => simp [allSome] at h
    | some b =>
      cases hr : allSome rest with
      | none => simp [allSome, hr] at h
      | some bs =>
        simp only [allSome, hr, Option.some.injEq] at h
        subst h
        rcases List.mem_cons.mp ha with h1 | h1
        · subst h1; exact hp (some a) (List.mem_cons_self _ _) a rfl
        · exact ih bs hr (fun x hx => hp x (List.mem_cons_of_mem _ hx)) a h1

/-- No call of generateNewSet ever gives an instance a non-empty buf. -/
theorem generateNewSet_buf_nil (enc : List Nat → List Nat) (c c2 : Component) (force : Bool)
    (hc : ∀ i ∈ c.instances, i.buf = []) (h : c.generateNewSet enc force = some c2) :
    ∀ i ∈ c2.instances, i.buf = [] := by
  unfold Component.generateNewSet at h
  simp only at h
  split at h
  · simp at h
  · rename_i insts hfresh
    simp only [Option.some.injEq] at h
    subst h
    intro i hi
    simp only [List.mem_map] at hi
    obtain ⟨i0, hi0, rfl⟩ := hi
    apply generateData_buf_nil
    split_ifs at hfresh with h1 h2
    · simp only [Option.some.injEq] at hfresh
      subst hfresh
      simp only [List.mem_map] at hi0
      obtain ⟨k, -, rfl⟩ := hi0
      rfl
    · refine allSome_forall (fun a => a.buf = []) _ insts hfresh ?_ i0 hi0
      intro x hx a hxa
      simp only [List.mem_map] at hx
      obtain ⟨i1, hi1, rfl⟩ := hx
      rw [churn_buf i1 a _ hxa]
      exact hc i1 hi1

theorem Atoi_zero : Go.Atoi "0" = some 0 := by decide

/-- C6: with one instance and NumberOfMetrics = 3, after generateNewSet(true) the
instance has start = 1 < end = 3, yet the body serveMetrics writes for id 0 is empty,
whatever the snappy block encoder is. -/
theorem serveMetrics_body_empty (enc : List Nat → List Nat) :
    (Component.generateNewSet enc (NewComponent ⟨1, 3, 0, 1000000000, .finite 0⟩) true).map
        (fun c => (c.instances.map (fun i => (i.start, i.end_)), c.serveMetrics "0"))
      = some ([(1, 3)], Response.body "snappy" []) := by
  simp [Component.generateNewSet, NewComponent, Instance.generateData, snappyEncode_nil,
    Component.serveMetrics, Atoi_zero, Instance.buffer, List.range_succ]

theorem digitChar_ne_newline (d : Nat) (h : d < 10) : Nat.digitChar d ≠ '\n' := by
  interval_cases d <;> decide

theorem toDigitsCore_no_newline (f : Nat) : ∀ (n : Nat) (acc : List Char), '\n' ∉ acc →
    '\n' ∉ Nat.toDigitsCore 10 f n acc := by
  induction f with
  | zero => intro n acc h; simpa [Nat.toDigitsCore] using h
  | succ f ih =>
    intro n acc h
    have hd : '\n' ∉ Nat.digitChar (n % 10) :: acc := by
      intro hm
      rcases List.mem_cons.mp hm with h1 | h1
      · exact digitChar_ne_newline _ (Nat.mod_lt _ (by norm_num)) h1.symm
      · exact h h1
    simp only [Nat.toDigitsCore]
    split
    · exact hd
    · exact ih _ _ hd

theorem natRepr_no_newline (n : Nat) : '\n' ∉ (toString n).data := by
  show '\n' ∉ (Nat.repr n).data
  unfold Nat.repr Nat.toDigits
  simpa [List.asString] using toDigitsCore_no_newline (n + 1) n [] (by simp)

theorem fmtInt_no_newline (j : Int) : '\n' ∉ (Go.fmtInt j).data := by
  unfold Go.fmtInt
  cases j with
  | ofNat m => exact natRepr_no_newline m
  | negSucc m =>
    show '\n' ∉ ("-" ++ toString (Nat.succ m)).data
    rw [String.data_append]
    intro h
    rcases List.mem_append.mp h with h1 | h1
    · revert h1; decide
    · exact natRepr_no_newline _ h1

theorem intercalate_go_no_newline (s : String) (hs : '\n' ∉ s.data) :
    ∀ (l : List String) (acc : String), '\n' ∉ acc.data → (∀ a ∈ l, '\n' ∉ a.data) →
      '\n' ∉ (String.intercalate.go acc s l).data := by
  intro l
  induction l with
  | nil => intro acc h _; simpa [String.intercalate.go] using h
  | cons a rest ih =>
    intro acc h hl
    simp only [String.intercalate.go]
    apply ih
    · simp only [String.data_append, List.mem_append, not_or]
      exact ⟨⟨h, hs⟩, hl a (List.mem_cons_self _ _)⟩
    · intro b hb; exact hl b (List.mem_cons_of_mem _ hb)

theorem intercalate_no_newline (s : String) (hs : '\n' ∉ s.data) (l : List String)
    (hl : ∀ a ∈ l, '\n' ∉ a.data) : '\n' ∉ (String.intercalate s l).data := by
  cases l with
  | nil => simp [String.intercalate]
  | cons a rest =>
    simp only [String.intercalate]
    exact intercalate_go_no_newline s hs rest a (hl a (List.mem_cons_self _ _))
      (fun b hb => hl b (List.mem_cons_of_mem _ hb))

theorem seriesLabels_no_newline (seriesCount id : Int) :
    ∀ a ∈ seriesLabels seriesCount id, '\n' ∉ a.data := by
  intro a ha
  unfold seriesLabels at ha
  rcases List.mem_append.mp ha with h | h
  · simp only [List.mem_map] at h
    obtain ⟨s, -, rfl⟩ := h
    have h1 := fmtInt_no_newline (s : Int)
    simp only [String.data_append, List.mem_append, not_or]
    refine ⟨⟨⟨⟨by decide, h1⟩, by decide⟩, h1⟩, by decide⟩
  · simp only [List.mem_singleton] at h
    subst h
    have h1 := fmtInt_no_newline id
    simp only [String.data_append, List.mem_append, not_or]
    exact ⟨⟨by decide, h1⟩, by decide⟩

theorem splitLines_ne_nil (cs : List Char) : splitLines cs ≠ [] := by
  cases cs with
  | nil => simp [splitLines]
  | cons ch rest =>
    simp only [splitLines]
    split
    · simp
    · split <;> simp

theorem splitLines_line (rest : List Char) : ∀ (a : List Char), '\n' ∉ a →
    splitLines (a ++ '\n' :: rest) = a :: splitLines rest := by
  intro a
  induction a with
  | nil =>
    intro _
    simp only [List.nil_append, splitLines]
    split
    · rename_i h; exact absurd h (splitLines_ne_nil rest)
    · rename_i l ls h; simp [h]
  | cons c a ih =>
    intro h
    have hc : c ≠ '\n' := fun e => h (e ▸ List.mem_cons_self _ _)
    have ha : '\n' ∉ a := fun e => h (List.mem_cons_of_mem _ e)
    show splitLines (c :: (a ++ '\n' :: rest)) = (c :: a) :: splitLines rest
    rw [splitLines, ih ha]
    simp [hc]

/-- The two lines one iteration of generateData writes. -/
theorem metricText_data (seriesCount id j : Int) (rest : List Char) :
    (metricText seriesCount id j).data ++ rest
      = ("# TYPE agent_metric_test_".data ++ (Go.fmtInt j).data ++ " counter".data)
        ++ '\n' :: (("agent_metric_test_".data ++ (Go.fmtInt j).data ++ "\x7b".data
          ++ (String.intercalate "," (seriesLabels seriesCount id)).data ++ "\x7d 1".data)
        ++ '\n' :: rest) := by
  have e1 : (" counter\n" : String).data = " counter".data ++ ['\n'] := by decide
  have e2 : ("\x7d 1\n" : String).data = "\x7d 1".data ++ ['\n'] := by decide
  simp only [metricText, String.data_append, e1, e2, List.append_assoc, List.cons_append,
    List.nil_append]

theorem typeLine_first (j : Int) :
    isTypeLine ("# TYPE agent_metric_test_".data ++ (Go.fmtInt j).data ++ " counter".data)
      = true := by
  simp only [isTypeLine, Bool.and_eq_true, List.isPrefixOf_iff_prefix,
    List.isSuffixOf_iff_suffix]
  exact ⟨⟨(Go.fmtInt j).data ++ " counter".data, by simp⟩,
    ⟨"# TYPE agent_metric_test_".data ++ (Go.fmtInt j).data, by simp⟩⟩

theorem typeLine_second (a b c d : List Char) :
    isTypeLine ("agent_metric_test_".data ++ a ++ b ++ c ++ d) = false := by
  have e : "agent_metric_test_".data = 'a' :: "gent_metric_test_".data := by decide
  have e2 : "# TYPE agent_metric_test_".data = '#' :: " TYPE agent_metric_test_".data := by
    decide
  simp [isTypeLine, e, e2, List.isPrefixOf]

theorem typeLines_block (seriesCount id j : Int) (rest : List Char) :
    ((splitLines ((metricText seriesCount id j).data ++ rest)).filter isTypeLine).length
      = ((splitLines rest).filter isTypeLine).length + 1 := by
  have h1 : '\n' ∉ "# TYPE agent_metric_test_".data ++ (Go.fmtInt j).data ++ " counter".data := by
    simp only [List.mem_append, not_or]
    exact ⟨⟨by decide, fmtInt_no_newline j⟩, by decide⟩
  have h2 : '\n' ∉ "agent_metric_test_".data ++ (Go.fmtInt j).data ++ "\x7b".data
      ++ (String.intercalate "," (seriesLabels seriesCount id)).data ++ "\x7d 1".data := by
    simp only [List.mem_append, not_or]
    exact ⟨⟨⟨⟨by decide, fmtInt_no_newline j⟩, by decide⟩,
      intercalate_no_newline "," (by decide) _ (seriesLabels_no_newline seriesCount id)⟩,
      by decide⟩
  rw [metricText_data, splitLines_line _ _ h1, splitLines_line _ _ h2]
  rw [List.filter_cons_of_pos (typeLine_first j)]
  rw [List.filter_cons_of_neg (by rw [typeLine_second]; decide)]
  simp

theorem typeLines_blocks (seriesCount id : Int) (js : List Int) :
    ((splitLines ((js.map (fun j => (metricText seriesCount id j).data)).flatten)).filter
      isTypeLine).length = js.length := by
  induction js with
  | nil => simp only [List.map_nil, List.flatten_nil, List.length_nil]; decide
  | cons j rest ih =>
    simp only [List.map_cons, List.flatten_cons, List.length_cons]
    rw [typeLines_block, ih]

/-- The text generateData builds has one TYPE line per j with start <= j < end. -/
theorem typeLineCount_text (i : Instance) (seriesCount : Int) :
    typeLineCount (i.text seriesCount) = (i.end_ - i.start).toNat := by
  unfold typeLineCount Instance.text
  rw [String.data_join, List.map_map]
  have := typeLines_blocks seriesCount i.id
    ((List.range (i.end_ - i.start).toNat).map (fun t : Nat => i.start + (t : Int)))
  simp only [List.map_map, List.length_map, List.length_range] at this
  exact this

/-- A forced generateNewSet with k >= 0 instances: instance number x has id x, the window
from 1 to NumberOfMetrics and an empty buf. -/
theorem generateNewSet_force (enc : List Nat → List Nat) (c : Component)
    (hk : 0 ≤ c.args.NumberOfInstances) :
    c.generateNewSet enc true
      = some ⟨c.args, (List.range c.args.NumberOfInstances.toNat).map
          (fun (x : Nat) => { start := 1, end_ := c.args.NumberOfMetrics, id := (x : Int),
                              buf := [] })⟩ := by
  have h : ¬ (c.args.NumberOfInstances < 0) := not_lt.mpr hk
  simp [Component.generateNewSet, h, Instance.generateData, snappyEncode_nil]

/-- After a forced generateNewSet with k >= 0 instances the ids are 0..k-1 in index order,
and the text of every instance has NumberOfMetrics - 1 TYPE lines. -/
theorem generateNewSet_force_counts (enc : List Nat → List Nat) (c : Component)
    (hk : 0 ≤ c.args.NumberOfInstances) :
    (c.generateNewSet enc true).map
        (fun c2 => c2.instances.map
          (fun i => (i.id, typeLineCount (i.text c2.args.NumberOfSeries))))
      = some ((List.range c.args.NumberOfInstances.toNat).map
          (fun (x : Nat) => ((x : Int), (c.args.NumberOfMetrics - 1).toNat))) := by
  rw [generateNewSet_force enc c hk]
  simp only [Option.map_some', List.map_map, typeLineCount_text]
  rfl

/-- C7: generateNewSet(true) with NumberOfInstances = 2 and NumberOfMetrics = 3 gives two
instances with ids 0 and 1, and the text of each has 2 TYPE lines, not 3. -/
theorem generateNewSet_metrics_one_short (enc : List Nat → List Nat) :
    (Component.generateNewSet enc (NewComponent ⟨2, 3, 0, 1000000000, .finite 0⟩) true).map
        (fun c => c.instances.map
          (fun i => (i.id, typeLineCount (i.text c.args.NumberOfSeries))))
      = some [(0, 2), (1, 2)] :=
  generateNewSet_force_counts enc (NewComponent ⟨2, 3, 0, 1000000000, .finite 0⟩) (by decide)

theorem roundHalfEven_nonneg {x : ℚ} (hx : 0 ≤ x) : 0 ≤ roundHalfEven x := by
  have hf : 0 ≤ ⌊x⌋ := Int.floor_nonneg.mpr hx
  unfold roundHalfEven
  split_ifs <;> omega

theorem roundHalfEven_le {x : ℚ} {N : Int} (hx : x ≤ N) : roundHalfEven x ≤ N := by
  rcases eq_or_lt_of_le hx with h | h
  · subst h
    simp [roundHalfEven]
  · have hf : ⌊x⌋ < N := Int.floor_lt.mpr h
    unfold roundHalfEven
    split_ifs <;> omega

theorem roundHalfEven_intCast (n : Int) : roundHalfEven (n : ℚ) = n := by
  simp [roundHalfEven]

theorem roundF32_zero : roundF32 0 = 0 := by
  simp [roundF32, roundHalfEven]

theorem roundF32_nonneg {q : ℚ} (hq : 0 ≤ q) : 0 ≤ roundF32 q := by
  unfold roundF32
  have hp : (0 : ℚ) < 2 ^ ulpExp q := by positivity
  have hx : 0 ≤ q / 2 ^ ulpExp q := div_nonneg hq hp.le
  have := roundHalfEven_nonneg hx
  have h2 : (0 : ℚ) ≤ (roundHalfEven (q / 2 ^ ulpExp q) : ℚ) := by exact_mod_cast this
  exact mul_nonneg h2 hp.le

theorem ulpExp_le {q : ℚ} {k : Int} (hq : 0 < q) (hk : q ≤ 2 ^ k) (hk0 : -126 ≤ k) :
    ulpExp q ≤ k := by
  have h1 : Int.log 2 q ≤ k := by
    have := Int.log_mono_right (b := 2) hq hk
    have h2 : Int.log 2 ((2 : ℚ) ^ k) = k := by
      have := Int.log_zpow (R := ℚ) (b := 2) (by norm_num) k
      simpa using this
    omega
  unfold ulpExp
  rw [abs_of_pos hq]
  have : max (Int.log 2 q) (-126) ≤ k := max_le h1 hk0
  omega

/-- Rounding to binary32 does not cross a power of two above. -/
theorem roundF32_le_two_pow {q : ℚ} {k : Int} (hq : 0 ≤ q) (hk : q ≤ 2 ^ k) (hk0 : -126 ≤ k) :
    roundF32 q ≤ 2 ^ k := by
  rcases eq_or_lt_of_le hq with h | h
  · subst h
    rw [roundF32_zero]; positivity
  · have hu := ulpExp_le h hk hk0
    have hp : (0 : ℚ) < 2 ^ ulpExp q := by positivity
    obtain ⟨m, hm⟩ : ∃ m : ℕ, k = ulpExp q + m := ⟨(k - ulpExp q).toNat, by omega⟩
    have hsplit : (2 : ℚ) ^ k = ((2 ^ m : ℕ) : ℤ) * 2 ^ ulpExp q := by
      rw [hm, zpow_add₀ (by norm_num), zpow_natCast]
      push_cast
      ring
    have hx : q / 2 ^ ulpExp q ≤ (((2 ^ m : ℕ) : ℤ) : ℚ) := by
      rw [div_le_iff₀ hp, ← hsplit]; exact hk
    have hr := roundHalfEven_le hx
    have hr2 : (roundHalfEven (q / 2 ^ ulpExp q) : ℚ) ≤ (((2 ^ m : ℕ) : ℤ) : ℚ) := by
      exact_mod_cast hr
    unfold roundF32
    rw [hsplit]
    exact mul_le_mul_of_nonneg_right hr2 hp.le

theorem wrapInt_of_range {x : Int} (h1 : -(2 ^ 63) ≤ x) (h2 : x < 2 ^ 63) : Go.wrapInt x = x := by
  unfold Go.wrapInt
  omega

theorem ofRat_of_le {q : ℚ} (hq : 0 ≤ q) (hk : q ≤ 2 ^ (63 : ℤ)) :
    F32.ofRat q = .finite (roundF32 q) := by
  have h1 := roundF32_nonneg hq
  have h2 := roundF32_le_two_pow hq hk (by norm_num)
  have h3 : ¬ ((2 : ℚ) ^ 128 ≤ roundF32 q) := by
    intro h
    have : (2 : ℚ) ^ 128 ≤ 2 ^ (63 : ℤ) := le_trans h h2
    norm_num at this
  have h4 : ¬ (roundF32 q ≤ -(2 ^ 128)) := by
    intro h
    have : (0 : ℚ) ≤ -(2 ^ 128) := le_trans h1 h
    norm_num at this
  simp [F32.ofRat, h3, h4]

theorem toInt_finite {q : ℚ} (h0 : 0 ≤ q) (h1 : ⌊q⌋ < 2 ^ 63) :
    F32.toInt (.finite q) = some ⌊q⌋ := by
  have hf : 0 ≤ ⌊q⌋ := Int.floor_nonneg.mpr h0
  simp only [F32.toInt, h0, if_true]
  rw [if_pos]
  constructor <;> omega

/-- The value of adjust when the difference and the converted product fit an int. -/
theorem churnAdjust_eq (i : Instance) (c : ℚ) (h1 : 0 ≤ i.end_ - i.start)
    (h2 : i.end_ - i.start < 2 ^ 63) (hc0 : 0 ≤ c) (hc1 : c ≤ 1)
    (hA : ⌊roundF32 (roundF32 ((i.end_ - i.start : Int) : ℚ) * c)⌋ < 2 ^ 63) :
    i.churnAdjust (.finite c)
        = some ⌊roundF32 (roundF32 ((i.end_ - i.start : Int) : ℚ) * c)⌋ ∧
      0 ≤ ⌊roundF32 (roundF32 ((i.end_ - i.start : Int) : ℚ) * c)⌋ := by
  have hw : Go.wrapInt (i.end_ - i.start) = i.end_ - i.start :=
    wrapInt_of_range (by omega) (by omega)
  have h63 : ((2 : ℚ) ^ (63 : ℤ)) = (((2 ^ 63 : Int)) : ℚ) := by norm_num
  have hq0 : (0 : ℚ) ≤ ((i.end_ - i.start : Int) : ℚ) := by exact_mod_cast h1
  have hq1 : (((i.end_ - i.start : Int)) : ℚ) ≤ 2 ^ (63 : ℤ) := by
    rw [h63]; exact (Int.cast_le (R := ℚ)).mpr (le_of_lt h2)
  have hr0 := roundF32_nonneg hq0
  have hr1 := roundF32_le_two_pow hq0 hq1 (by norm_num)
  have hp0 : 0 ≤ roundF32 ((i.end_ - i.start : Int) : ℚ) * c := mul_nonneg hr0 hc0
  have hp1 : roundF32 ((i.end_ - i.start : Int) : ℚ) * c ≤ 2 ^ (63 : ℤ) := by
    calc roundF32 ((i.end_ - i.start : Int) : ℚ) * c
        ≤ roundF32 ((i.end_ - i.start : Int) : ℚ) * 1 := mul_le_mul_of_nonneg_left hc1 hr0
      _ = roundF32 ((i.end_ - i.start : Int) : ℚ) := mul_one _
      _ ≤ 2 ^ (63 : ℤ) := hr1
  have hs0 := roundF32_nonneg hp0
  have hf0 : 0 ≤ ⌊roundF32 (roundF32 ((i.end_ - i.start : Int) : ℚ) * c)⌋ :=
    Int.floor_nonneg.mpr hs0
  refine ⟨?_, hf0⟩
  unfold Instance.churnAdjust F32.ofInt
  rw [hw, ofRat_of_le hq0 hq1]
  simp only [F32.mul]
  rw [ofRat_of_le hp0 hp1]
  exact toInt_finite hs0 hA

theorem log2_eq {q : ℚ} {k : ℤ} (hq : 0 < q) (hlo : 2 ^ k ≤ q) (hhi : q < 2 ^ (k + 1)) :
    Int.log 2 q = k := by
  have h1 : k ≤ Int.log 2 q := by
    have := (Int.zpow_le_iff_le_log (R := ℚ) (b := 2) (by norm_num) (x := k) hq).mp
      (by simpa using hlo)
    exact this
  have h2 : Int.log 2 q < k + 1 := by
    have := (Int.lt_zpow_iff_log_lt (R := ℚ) (b := 2) (by norm_num) (x := k + 1) hq).mp
      (by simpa using hhi)
    exact this
  omega

theorem roundF32_eval {q : ℚ} {k n : ℤ} (hq : 0 < q) (hlo : 2 ^ k ≤ q) (hhi : q < 2 ^ (k + 1))
    (hk : -126 ≤ k) (hn : roundHalfEven (q / 2 ^ (k - 23)) = n) :
    roundF32 q = n * 2 ^ (k - 23) := by
  have hu : ulpExp q = k - 23 := by
    unfold ulpExp
    rw [abs_of_pos hq, log2_eq hq hlo hhi, max_eq_left hk]
  unfold roundF32
  rw [hu, hn]

theorem roundHalfEven_of_lt_half {x : ℚ} {n : ℤ} (h1 : (n : ℚ) ≤ x) (h2 : x < n + 1 / 2) :
    roundHalfEven x = n := by
  have hf : ⌊x⌋ = n := by
    rw [Int.floor_eq_iff]
    constructor
    · exact h1
    · linarith
  unfold roundHalfEven
  rw [hf, if_pos]
  linarith

theorem roundF32_ten : roundF32 10 = 10 := by
  have h : roundHalfEven ((10 : ℚ) / 2 ^ ((3 : ℤ) - 23)) = 10485760 := by
    have : (10 : ℚ) / 2 ^ ((3 : ℤ) - 23) = ((10485760 : ℤ) : ℚ) := by norm_num
    rw [this, roundHalfEven_intCast]
  rw [roundF32_eval (k := 3) (by norm_num) (by norm_num) (by norm_num) (by norm_num) h]
  norm_num

theorem roundF32_ten_tenths : roundF32 (10 * (13421773 / 134217728)) = 1 := by
  have h : roundHalfEven ((10 * (13421773 / 134217728) : ℚ) / 2 ^ ((0 : ℤ) - 23)) = 8388608 := by
    apply roundHalfEven_of_lt_half <;> norm_num
  rw [roundF32_eval (k := 0) (by norm_num) (by norm_num) (by norm_num) (by norm_num) h]
  norm_num

theorem roundF32_two_pow_62 : roundF32 (2 ^ 62) = 2 ^ 62 := by
  have h : roundHalfEven (((2 : ℚ) ^ 62) / 2 ^ ((62 : ℤ) - 23)) = 8388608 := by
    have : ((2 : ℚ) ^ 62) / 2 ^ ((62 : ℤ) - 23) = ((8388608 : ℤ) : ℚ) := by norm_num
    rw [this, roundHalfEven_intCast]
  rw [roundF32_eval (k := 62) (by norm_num) (by norm_num) (by norm_num) (by norm_num) h]
  norm_num

theorem roundHalfEven_of_gt_half {x : ℚ} {n : ℤ} (h1 : (n : ℚ) + 1 / 2 < x)
    (h2 : x < n + 1) : roundHalfEven x = n + 1 := by
  have hf : ⌊x⌋ = n := by
    rw [Int.floor_eq_iff]
    constructor
    · linarith
    · exact h2
  unfold roundHalfEven
  rw [hf, if_neg (by linarith), if_pos (by linarith)]

theorem roundF32_one : roundF32 1 = 1 := by
  have h : roundHalfEven ((1 : ℚ) / 2 ^ ((0 : ℤ) - 23)) = 8388608 := by
    have : (1 : ℚ) / 2 ^ ((0 : ℤ) - 23) = ((8388608 : ℤ) : ℚ) := by norm_num
    rw [this, roundHalfEven_intCast]
  rw [roundF32_eval (k := 0) (by norm_num) (by norm_num) (by norm_num) (by norm_num) h]
  norm_num

theorem roundF32_ten_seven_tenths : roundF32 (10 * (11744051 / 16777216)) = 7 := by
  have h : roundHalfEven ((10 * (11744051 / 16777216) : ℚ) / 2 ^ ((2 : ℤ) - 23))
      = 14680063 + 1 := by
    apply roundHalfEven_of_gt_half <;> norm_num
  rw [roundF32_eval (k := 2) (by norm_num) (by norm_num) (by norm_num) (by norm_num) h]
  norm_num

/-- The shift for a window of 10 ids, for the churn values used below. -/
theorem shift_ten (i : Instance) (hd : i.end_ - i.start = 10) :
    ⌊roundF32 (roundF32 ((i.end_ - i.start : Int) : ℚ) * (1 / 10))⌋ = 1 ∧
    ⌊roundF32 (roundF32 ((i.end_ - i.start : Int) : ℚ) * (13421773 / 134217728))⌋ = 1 ∧
    ⌊roundF32 (roundF32 ((i.end_ - i.start : Int) : ℚ) * (11744051 / 16777216))⌋ = 7 := by
  have hq : (((i.end_ - i.start : Int)) : ℚ) = 10 := by rw [hd]; norm_num
  have e1 : (10 : ℚ) * (1 / 10) = 1 := by norm_num
  have e7 : ⌊(7 : ℚ)⌋ = 7 := by
    have : (7 : ℚ) = ((7 : ℤ) : ℚ) := by norm_num
    rw [this, Int.floor_intCast]
  rw [hq, roundF32_ten, e1, roundF32_one, roundF32_ten_tenths, roundF32_ten_seven_tenths]
  exact ⟨Int.floor_one, Int.floor_one, e7⟩

theorem shift_overflow :
    ⌊roundF32 (roundF32 ((((2 : Int) ^ 62 + 1) - 1 : Int) : ℚ) * 1)⌋ = 2 ^ 62 := by
  have hd : ((((2 : Int) ^ 62 + 1) - 1 : Int) : ℚ) = 2 ^ 62 := by norm_num
  have hf : ⌊((2 : ℚ) ^ 62)⌋ = 2 ^ 62 := by
    have : ((2 : ℚ) ^ 62) = (((2 ^ 62 : Int)) : ℚ) := by norm_num
    rw [this, Int.floor_intCast]
  rw [hd, roundF32_two_pow_62, mul_one, roundF32_two_pow_62, hf]

theorem churn_of_adjust (i : Instance) (c : ℚ) (adjust : Int) (hc0 : 0 < c) (hc1 : c ≤ 1)
    (ha : i.churnAdjust (.finite c) = some adjust) :
    i.churn (.finite c) = some { i with start := Go.wrapInt (i.start + adjust),
                                        end_ := Go.wrapInt (i.end_ + adjust) } := by
  have h1 : ¬ (c = 0) := ne_of_gt hc0
  have h2 : ¬ (1 < c) := not_lt.mpr hc1
  simp [Instance.churn, F32.isZero, F32.gtOne, h1, h2, ha]

/-- C8 (counterexample): two instances with start <= end on which the claim fails.
With start = 1, end = 2^62 + 1 and churn 1 the sum end + adjust wraps around the int
range: end moves from 2^62 + 1 back to -2^63 + 1. With 10 ids (start = 1, end = 11) and
churn float32(0.7) = 11744051 / 2^24 the code shifts by 7, while the exact truncation of
(end - start) * c is 6. -/
theorem churn_counterexample :
    (Instance.churn ⟨1, 2 ^ 62 + 1, 0, []⟩ (.finite 1)
        = some ⟨2 ^ 62 + 1, -(2 ^ 63) + 1, 0, []⟩ ∧
      (-(2 ^ 63) + 1 : Int) < 2 ^ 62 + 1) ∧
    (Instance.churn ⟨1, 11, 0, []⟩ (.finite (11744051 / 16777216))
        = some ⟨1 + 7, 11 + 7, 0, []⟩ ∧
      ⌊(((11 : Int) - 1 : Int) : ℚ) * (11744051 / 16777216)⌋ = 6) := by
  refine ⟨⟨?_, by norm_num⟩, ?_, ?_⟩
  · have hA := shift_overflow
    have h := (churnAdjust_eq ⟨1, 2 ^ 62 + 1, 0, []⟩ 1
      (by norm_num) (by norm_num) (by norm_num) (by norm_num)
      (by rw [hA]; norm_num)).1
    rw [hA] at h
    rw [churn_of_adjust _ 1 (2 ^ 62) (by norm_num) (by norm_num) h]
    have e1 : Go.wrapInt (1 + 2 ^ 62) = 2 ^ 62 + 1 := by unfold Go.wrapInt; norm_num
    have e2 : Go.wrapInt (2 ^ 62 + 1 + 2 ^ 62) = -(2 ^ 63) + 1 := by
      unfold Go.wrapInt; norm_num
    simp only [e1, e2]
  · have hA := (shift_ten ⟨1, 11, 0, []⟩ (by norm_num)).2.2
    have h := (churnAdjust_eq ⟨1, 11, 0, []⟩ (11744051 / 16777216)
      (by norm_num) (by norm_num) (by norm_num) (by norm_num)
      (by rw [hA]; norm_num)).1
    rw [hA] at h
    rw [churn_of_adjust _ _ 7 (by norm_num) (by norm_num) h]
    have e1 : Go.wrapInt (1 + 7) = 1 + 7 := by unfold Go.wrapInt; norm_num
    have e2 : Go.wrapInt (11 + 7) = 11 + 7 := by unfold Go.wrapInt; norm_num
    simp only [e1, e2]
  · rw [Int.floor_eq_iff]
    constructor <;> norm_num

/-- C8 (amended): let adjust = int(float32(end - start) * c), the conversion of the
width end - start to float32 and the float32 product each rounded to nearest (ties to
even) and the result truncated. For an instance of int fields with start <= end and a
churn c with 0 < c <= 1, whenever end - start, adjust and end + adjust fit the int
range, churn adds adjust >= 0 to start and to end, so the width end - start is preserved
and both bounds move forward; for 10 ids (end - start = 10) and c = 10%, taken exactly
or as float32(0.1) = 13421773 / 2^27, the shift is exactly 1; churn 0, a churn above 1
and +Inf leave the instance unchanged. -/
theorem churn_shifts_window (i : Instance) (c : ℚ) (hs : -(2 ^ 63) ≤ i.start)
    (h1 : i.start ≤ i.end_) (hd : i.end_ - i.start < 2 ^ 63) (hc0 : 0 < c) (hc1 : c ≤ 1)
    (hA : ⌊roundF32 (roundF32 ((i.end_ - i.start : Int) : ℚ) * c)⌋ < 2 ^ 63)
    (he : i.end_ + ⌊roundF32 (roundF32 ((i.end_ - i.start : Int) : ℚ) * c)⌋ < 2 ^ 63) :
    i.churn (.finite c)
      = some { i with
          start := i.start + ⌊roundF32 (roundF32 ((i.end_ - i.start : Int) : ℚ) * c)⌋,
          end_ := i.end_ + ⌊roundF32 (roundF32 ((i.end_ - i.start : Int) : ℚ) * c)⌋ } ∧
    0 ≤ ⌊roundF32 (roundF32 ((i.end_ - i.start : Int) : ℚ) * c)⌋ ∧
    (i.end_ + ⌊roundF32 (roundF32 ((i.end_ - i.start : Int) : ℚ) * c)⌋)
        - (i.start + ⌊roundF32 (roundF32 ((i.end_ - i.start : Int) : ℚ) * c)⌋)
      = i.end_ - i.start ∧
    i.start ≤ i.start + ⌊roundF32 (roundF32 ((i.end_ - i.start : Int) : ℚ) * c)⌋ ∧
    i.end_ ≤ i.end_ + ⌊roundF32 (roundF32 ((i.end_ - i.start : Int) : ℚ) * c)⌋ ∧
    (i.end_ - i.start = 10 → (c = 1 / 10 ∨ c = 13421773 / 134217728) →
      i.churn (.finite c) = some { i with start := i.start + 1, end_ := i.end_ + 1 }) ∧
    i.churn (.finite 0) = some i ∧
    (∀ c2 : ℚ, 1 < c2 → i.churn (.finite c2) = some i) ∧
    i.churn .posInf = some i := by
  obtain ⟨ha, ha0⟩ := churnAdjust_eq i c (by omega) hd hc0.le hc1 hA
  have hch : i.churn (.finite c)
      = some { i with
          start := i.start + ⌊roundF32 (roundF32 ((i.end_ - i.start : Int) : ℚ) * c)⌋,
          end_ := i.end_ + ⌊roundF32 (roundF32 ((i.end_ - i.start : Int) : ℚ) * c)⌋ } := by
    rw [churn_of_adjust i c _ hc0 hc1 ha]
    rw [wrapInt_of_range (by omega) (by omega), wrapInt_of_range (by omega) (by omega)]
  refine ⟨hch, ha0, by omega, by omega, by omega, ?_, ?_, ?_, ?_⟩
  · intro h10 hc
    rw [hch]
    rcases hc with hc | hc
    · subst hc; rw [(shift_ten i h10).1]
    · subst hc; rw [(shift_ten i h10).2.1]
  · simp [Instance.churn, F32.isZero]
  · intro c2 hc2
    simp [Instance.churn, F32.gtOne, hc2]
  · simp [Instance.churn, F32.gtOne]

/-- Witness for C8: the window from 1 to 11 with churn float32(0.1) is moved to the
window from 2 to 12. -/
theorem churn_shifts_window_witness :
    (-(2 ^ 63) : Int) ≤ 1 ∧ (1 : Int) ≤ 11 ∧ (11 : Int) - 1 < 2 ^ 63 ∧
    (0 : ℚ) < 13421773 / 134217728 ∧ (13421773 / 134217728 : ℚ) ≤ 1 ∧
    ⌊roundF32 (roundF32 (((11 : Int) - 1 : Int) : ℚ) * (13421773 / 134217728))⌋ < 2 ^ 63 ∧
    (11 : Int) + ⌊roundF32 (roundF32 (((11 : Int) - 1 : Int) : ℚ)
      * (13421773 / 134217728))⌋ < 2 ^ 63 ∧
    Instance.churn ⟨1, 11, 0, []⟩ (.finite (13421773 / 134217728))
      = some ⟨1 + 1, 11 + 1, 0, []⟩ :=
  ⟨by norm_num, by norm_num, by norm_num, by norm_num, by norm_num,
    by rw [(shift_ten ⟨1, 11, 0, []⟩ (by norm_num)).2.1]; norm_num,
    by rw [(shift_ten ⟨1, 11, 0, []⟩ (by norm_num)).2.1]; norm_num,
    (churn_shifts_window ⟨1, 11, 0, []⟩ (13421773 / 134217728)
      (by norm_num) (by norm_num) (by norm_num) (by norm_num) (by norm_num)
      (by rw [(shift_ten ⟨1, 11, 0, []⟩ (by norm_num)).2.1]; norm_num)
      (by rw [(shift_ten ⟨1, 11, 0, []⟩ (by norm_num)).2.1]; norm_num)).2.2.2.2.2.1
      (by norm_num) (Or.inr rfl)⟩

/-- What serveMetrics answers, by cases on the path variable: 404 when it is not an
integer, the buffer of instance id when 0 <= id < len(c.instances), and an index out of
range otherwise. -/
theorem serveMetrics_cases (c : Component) (idVar : String) :
    (Go.Atoi idVar = none ∧ c.serveMetrics idVar = .notFound) ∨
    (∃ id : Int, Go.Atoi idVar = some id ∧ (id < 0 ∨ (c.instances.length : Int) ≤ id) ∧
      c.serveMetrics idVar = .indexOutOfRange) ∨
    (∃ (id : Int) (i : Instance), Go.Atoi idVar = some id ∧ 0 ≤ id ∧
      c.instances.get? id.toNat = some i ∧ c.serveMetrics idVar = .body "snappy" i.buffer) := by
  unfold Component.serveMetrics
  cases h : Go.Atoi idVar with
  | none => exact Or.inl ⟨rfl, rfl⟩
  | some id =>
    right
    by_cases h0 : 0 ≤ id
    · cases hg : c.instances.get? id.toNat with
      | none =>
        left
        refine ⟨id, rfl, Or.inr ?_, by simp only [h0, if_true, hg]⟩
        have := List.get?_eq_none.mp hg
        omega
      | some i =>
        right
        exact ⟨id, i, rfl, h0, hg, by simp only [h0, if_true, hg]⟩
    · left
      exact ⟨id, rfl, Or.inl (by omega), by simp [h0]⟩

theorem Atoi_one : Go.Atoi "1" = some 1 := by decide

theorem Atoi_minus_one : Go.Atoi "-1" = some (-1) := by decide

/-- C11: serveMetrics indexes c.instances without a bounds check. On a component fresh
from NewComponent (no instances yet) the id 0 is out of range, and with one instance
after generateNewSet(true) the ids 1 and -1 are out of range: the request gets neither
a 404 nor the buffer of an instance. -/
theorem serveMetrics_index_out_of_range (enc : List Nat → List Nat) :
    (NewComponent ⟨1, 3, 0, 1000000000, .finite 0⟩).serveMetrics "0"
      = Response.indexOutOfRange ∧
    (Component.generateNewSet enc (NewComponent ⟨1, 3, 0, 1000000000, .finite 0⟩) true).map
        (fun c => (c.instances.length, c.serveMetrics "1", c.serveMetrics "-1"))
      = some (1, Response.indexOutOfRange, Response.indexOutOfRange) := by
  constructor
  · simp [Component.serveMetrics, NewComponent, Atoi_zero]
  · rw [generateNewSet_force enc _ (by decide)]
    simp [Component.serveMetrics, NewComponent, Atoi_one, Atoi_minus_one, List.range_succ]

end Metrics

namespace Process

variable {E P : Type}

theorem loop_append (cp : List P → List Target) (jn : List Target → List Target → List Target)
    (more : List (Event E P)) (evs : List (Event E P)) :
    ∀ (c : Component) (out : List (List Target)), (loop cp jn c out evs).ret = none →
      loop cp jn c out (evs ++ more) =
        loop cp jn (loop cp jn c out evs).c (loop cp jn c out evs).out more := by
  induction evs with
  | nil => intro c out _; simp [loop]
  | cons ev rest ih =>
    intro c out hret
    cases ev with
    | cancelled => simp [loop] at hret
    | tick d =>
      cases h : d c.procFS with
      | error e => simp [loop, h] at hret
      | ok ps =>
        simp only [loop, h, List.cons_append] at hret ⊢
        exact ih _ _ hret
    | joinUpdate jt =>
      simp only [loop, List.cons_append] at hret ⊢
      exact ih _ _ hret

/-- C10: while Run is in its loop, an Update(args1) it consumes leaves procFS and
refreshInterval as New set them from args0, leaves the discovered processes unchanged,
sets join to args1.Join, emits exactly one further export, join(processes, args1.Join),
and Run keeps running. -/
theorem Update_changes_only_join (cp : List P → List Target)
    (jn : List Target → List Target → List Target) (args0 args1 : Arguments)
    (d0 : String → Except E (List P)) (evs : List (Event E P))
    (h : (Run cp jn (New args0) d0 evs).ret = none) :
    (Run cp jn (New args0) d0 (evs ++ [Update args1])).c.procFS = args0.ProcFS ∧
    (Run cp jn (New args0) d0 (evs ++ [Update args1])).c.refreshInterval
      = args0.RefreshInterval ∧
    (Run cp jn (New args0) d0 (evs ++ [Update args1])).c.processes
      = (Run cp jn (New args0) d0 evs).c.processes ∧
    (Run cp jn (New args0) d0 (evs ++ [Update args1])).c.join = args1.Join ∧
    (Run cp jn (New args0) d0 (evs ++ [Update args1])).out
      = (Run cp jn (New args0) d0 evs).out
          ++ [jn (Run cp jn (New args0) d0 evs).c.processes args1.Join] ∧
    (Run cp jn (New args0) d0 (evs ++ [Update args1])).ret = none := by
  cases h0 : d0 (New args0).procFS with
  | error e => simp [Run, h0] at h
  | ok ps =>
    by_cases hr : (New args0).refreshInterval ≤ 0
    · simp [Run, h0, hr] at h
    simp only [Run, h0, hr, if_false] at h ⊢
    rw [loop_append cp jn _ evs _ _ h]
    simp only [Update, loop, changed]
    exact ⟨(loop_procFS cp jn evs _ _).1, (loop_procFS cp jn evs _ _).2, trivial, trivial,
      trivial, trivial⟩

/-- Witness for C10: New with ProcFS /proc and interval 14, one successful tick, then an
Update whose ProcFS and RefreshInterval differ from those given to New. -/
theorem Update_changes_only_join_witness :
    (Run sampleConvert sampleJoin (New sampleArgs0) sampleDiscover sampleEvents).ret = none ∧
    (Run sampleConvert sampleJoin (New sampleArgs0) sampleDiscover
        (sampleEvents ++ [Update sampleArgs1])).c.procFS = "/proc" ∧
    (Run sampleConvert sampleJoin (New sampleArgs0) sampleDiscover
        (sampleEvents ++ [Update sampleArgs1])).c.refreshInterval = 14 ∧
    (Run sampleConvert sampleJoin (New sampleArgs0) sampleDiscover
        (sampleEvents ++ [Update sampleArgs1])).c.processes
      = (Run sampleConvert sampleJoin (New sampleArgs0) sampleDiscover sampleEvents).c.processes ∧
    (Run sampleConvert sampleJoin (New sampleArgs0) sampleDiscover
        (sampleEvents ++ [Update sampleArgs1])).c.join = [[("a", "b")]] ∧
    (Run sampleConvert sampleJoin (New sampleArgs0) sampleDiscover
        (sampleEvents ++ [Update sampleArgs1])).out
      = (Run sampleConvert sampleJoin (New sampleArgs0) sampleDiscover sampleEvents).out
          ++ [[[("__process_pid__", "7")], [("__process_pid__", "8")], [("a", "b")]]] ∧
    (Run sampleConvert sampleJoin (New sampleArgs0) sampleDiscover
        (sampleEvents ++ [Update sampleArgs1])).ret = none :=
  ⟨rfl, Update_changes_only_join sampleConvert sampleJoin sampleArgs0 sampleArgs1
    sampleDiscover sampleEvents rfl⟩

end Process
